import Mathlib

/-!
harcurl: a shallow embedding of `src/main.c`.

The development models the HAR to libcurl mapper of `src/main.c`.

Modelling conventions.

* A C `char` / `guint8` is a `Char` (the byte is its code); a C string and a `GByteArray`
  are both `List Char`.  A list that stands for a C string holds the bytes before the
  terminating NUL.  Every universally quantified statement below is proved for all
  character lists, in particular for those whose codes are bytes.
* The strings of a document that jansson parsed hold no NUL and are valid UTF-8; where a
  statement needs that of a string, it says so in a hypothesis.  `json_string` checks its
  argument as jansson does and returns NULL for bytes that are not valid UTF-8.
* A pointer that may be `NULL` is an `Option`.
* A function that dereferences `NULL` (undefined behaviour in C) returns `none`.
* Library primitives whose algorithm is not part of this repository (`g_base64_decode`,
  `g_base64_encode`, `g_utf8_validate`, `curl_easy_escape`, `curl_formadd`, zlib's
  `inflateInit2` / `inflate`) are parameters.
* What the memory holds where the program does not write is a parameter too: the contents
  of a fresh `g_malloc` block (`junk`) and the bytes that follow a byte array (`beyond`).
* `fprintf (stderr, ...)` diagnostics are not modelled.
-/

namespace Harcurl

/-! # Part 1: the embedding of `src/main.c` -/

/-! ## Characters and C strings -/

/-- The string terminator. -/
def NUL : Char := Char.ofNat 0

/-- GLib `g_ascii_tolower`: only the 26 ASCII capitals are changed. -/
def g_ascii_tolower (c : Char) : Char :=
  if 65 ≤ c.toNat ∧ c.toNat ≤ 90 then Char.ofNat (c.toNat + 32) else c

/-- GLib `g_ascii_toupper`: only the 26 ASCII small letters are changed. -/
def g_ascii_toupper (c : Char) : Char :=
  if 97 ≤ c.toNat ∧ c.toNat ≤ 122 then Char.ofNat (c.toNat - 32) else c

/-- The loop of GLib `g_ascii_strcasecmp` on two non-NULL strings: the difference of the
first pair of characters that differ after ASCII lowering, an exhausted string counting
as its terminator `0`. -/
def strcasecmp_loop : List Char → List Char → Int
  | c1 :: s1, c2 :: s2 =>
    if g_ascii_tolower c1 ≠ g_ascii_tolower c2 then
      (g_ascii_tolower c1).toNat - (g_ascii_tolower c2).toNat
    else strcasecmp_loop s1 s2
  | [], [] => 0
  | c1 :: _, [] => c1.toNat
  | [], c2 :: _ => - (c2.toNat : Int)

/-- GLib `g_ascii_strcasecmp`; `g_return_val_if_fail (s1 != NULL, 0)` makes a NULL first
argument compare as equal. -/
def g_ascii_strcasecmp (s1 : Option (List Char)) (s2 : List Char) : Int :=
  match s1 with
  | none => 0
  | some s => strcasecmp_loop s s2

/-- The C string that starts at the beginning of a buffer: the bytes before the first NUL. -/
def c_str (bytes : List Char) : List Char :=
  bytes.takeWhile (fun c => c != NUL)

/-- Libc `strstr` on a non-empty needle, as a cut: the text before the first occurrence
of the needle and the text after it, or `none` when the needle does not occur. -/
def strstr_cut (d : List Char) : List Char → Option (List Char × List Char)
  | [] => none
  | c :: cs =>
    if d.isPrefixOf (c :: cs) then some ([], (c :: cs).drop d.length)
    else match strstr_cut d cs with
      | some (a, b) => some (c :: a, b)
      | none => none

/-- The loop `while (--max_tokens && s)` of GLib `g_strsplit` followed by the final
`g_strdup (remainder)`; `n` is the value of `max_tokens` before the decrement. -/
def g_strsplit_loop (d : List Char) : Nat → List Char → List (List Char)
  | 0, r => [r]
  | n + 1, r =>
    if n = 0 then [r]
    else match strstr_cut d r with
      | none => [r]
      | some (a, b) => a :: g_strsplit_loop d n b

/-- GLib `g_strsplit (string, delimiter, max_tokens)` for a non-empty delimiter: at most
`max_tokens` pieces, the last one holding the whole remainder; `max_tokens < 1` means
`G_MAXINT`; the empty string splits into no piece at all. -/
def g_strsplit (s d : List Char) (max_tokens : Int) : List (List Char) :=
  if s = [] then []
  else g_strsplit_loop d (if max_tokens < 1 then 2147483647 else max_tokens.toNat) s

/-! ## The jansson document model -/

/-- A jansson value (`json_t`).  An object keeps its members in insertion order. -/
inductive json_t where
  | null : json_t
  | bool (b : Bool) : json_t
  | integer (n : Int) : json_t
  | real (bits : Nat) : json_t
  | string (s : List Char) : json_t
  | array (items : List json_t) : json_t
  | object (members : List (String × json_t)) : json_t

/-- The macro `json_is_object`, false on NULL. -/
def json_is_object : Option json_t → Bool
  | some (.object _) => true
  | _ => false

/-- The macro `json_is_array`, false on NULL. -/
def json_is_array : Option json_t → Bool
  | some (.array _) => true
  | _ => false

/-- The macro `json_is_string`, false on NULL. -/
def json_is_string : Option json_t → Bool
  | some (.string _) => true
  | _ => false

/-- First member of an association list with the given key. -/
def members_get (key : String) : List (String × json_t) → Option json_t
  | [] => none
  | (k, v) :: rest => if k = key then some v else members_get key rest

/-- Replace the value of the member `key`, or add the member at the end. -/
def members_set (key : String) (v : json_t) : List (String × json_t) → List (String × json_t)
  | [] => [(key, v)]
  | (k, w) :: rest => if k = key then (k, v) :: rest else (k, w) :: members_set key v rest

/-- Jansson `json_object_get`: NULL unless the value is an object with that member. -/
def json_object_get (obj : Option json_t) (key : String) : Option json_t :=
  match obj with
  | some (.object ms) => members_get key ms
  | _ => none

/-- Jansson `json_object_set_new`: nothing happens unless `obj` is an object and the new
value is not NULL. -/
def json_object_set_new (obj : json_t) (key : String) (value : Option json_t) : json_t :=
  match obj, value with
  | .object ms, some v => .object (members_set key v ms)
  | o, _ => o

/-- Jansson `json_string_value`: NULL unless the value is a string. -/
def json_string_value : Option json_t → Option (List Char)
  | some (.string s) => some s
  | _ => none

/-- Jansson `utf8_check_first` on the byte `u`: the length of the UTF-8 sequence that the
byte starts, 0 for a byte that starts none (a continuation byte `80..BF`, the overlong
leads `C0` and `C1`, and `F5..FF`). -/
def utf8_check_first (u : Nat) : Nat :=
  if u < 128 then 1
  else if u ≤ 191 then 0
  else if u = 192 ∨ u = 193 then 0
  else if u ≤ 223 then 2
  else if u ≤ 239 then 3
  else if u ≤ 244 then 4
  else 0

/-- Jansson `utf8_check_full` on the `size` bytes of one sequence (`size` is 2, 3 or 4):
the bytes after the first are continuation bytes, and the code point is at most `10FFFF`,
is no surrogate and is not encoded overlong. -/
def utf8_check_full (buffer : List Nat) : Bool :=
  match buffer with
  | [] => false
  | u :: rest =>
    let size := buffer.length
    if size = 2 ∨ size = 3 ∨ size = 4 then
      let value := if size = 2 then u % 32 else if size = 3 then u % 16 else u % 8
      if rest.all (fun b => decide (128 ≤ b ∧ b ≤ 191)) then
        let value := rest.foldl (fun v b => v * 64 + b % 64) value
        if value > 1114111 then false
        else if 55296 ≤ value ∧ value ≤ 57343 then false
        else if (size = 2 ∧ value < 128) ∨ (size = 3 ∧ value < 2048)
            ∨ (size = 4 ∧ value < 65536) then false
        else true
      else false
    else false

/-- The loop of jansson `utf8_check_string` over the remaining bytes; the first argument
bounds the number of iterations (the number of bytes is always enough). -/
def utf8_check_loop : Nat → List Char → Bool
  | _, [] => true
  | 0, _ :: _ => false
  | fuel + 1, c :: cs =>
    let count := utf8_check_first c.toNat
    if count = 0 then false
    else if count = 1 then utf8_check_loop fuel cs
    else if count > (c :: cs).length then false
    else if !utf8_check_full (((c :: cs).take count).map Char.toNat) then false
    else utf8_check_loop fuel (cs.drop (count - 1))

/-- Jansson `utf8_check_string (string, length)`: the bytes are well-formed UTF-8. -/
def utf8_check_string (s : List Char) : Bool :=
  utf8_check_loop s.length s

/-- Jansson `json_string`: NULL for a NULL argument and for a C string that is not valid
UTF-8, a new string value otherwise. -/
def json_string (s : Option (List Char)) : Option json_t :=
  match s with
  | none => none
  | some value => if utf8_check_string value then some (json_t.string value) else none

/-- The elements visited by `json_array_foreach`: none unless the value is an array. -/
def json_array_items : Option json_t → List json_t
  | some (.array xs) => xs
  | _ => []

/-- Jansson `json_array_size`. -/
def json_array_size (j : Option json_t) : Nat :=
  (json_array_items j).length

/-! ## Status codes (`HarStatusCode`) -/

def HAR_OK : Nat := 0

def HAR_ERROR_UNKNOWN : Nat := 128

def HAR_ERROR_NO_REQUEST : Nat := 129

def HAR_ERROR_NO_RESPONSE : Nat := 130

def HAR_ERROR_NO_METHOD : Nat := 131

def HAR_ERROR_NO_URL : Nat := 132

def HAR_ERROR_TEXT_AND_PARAMS : Nat := 133

def HAR_ERROR_WITH_CURL : Nat := 134

def HAR_ERROR_WITH_HTTP : Nat := 135

def HAR_ERROR_WITH_JANSSON : Nat := 136

def HAR_ERROR_WITH_JSON : Nat := 137

def HAR_ERROR_LAST : Nat := 138

/-! ## Header codec -/

/-- The loop body of `har_headers_to_curl_slist` over the remaining elements: one line
`"name: value"` per element; `strlen (NULL)` when a name or a value is not a string. -/
def headers_to_lines : List json_t → Option (List (List Char))
  | [] => some []
  | pj :: rest =>
    match json_string_value (json_object_get (some pj) "name"),
          json_string_value (json_object_get (some pj) "value") with
    | some ks, some vs =>
      match headers_to_lines rest with
      | some ls => some ((ks ++ ": ".toList ++ vs) :: ls)
      | none => none
    | _, _ => none

/-- Source `har_headers_to_curl_slist`: the `curl_slist` as the list of its lines. -/
def har_headers_to_curl_slist (headers : Option json_t) : Option (List (List Char)) :=
  headers_to_lines (json_array_items headers)

/-- The body of the `for` loop of `har_headers_from_text` for one line: the header object
the line contributes, if any. -/
def header_of_line (line : List Char) : Option json_t :=
  if line.length = 0 then none
  else match g_strsplit line ":".toList 2 with
    | name :: value :: _ =>
      let value := match value with
        | ' ' :: v => v
        | v => v
      let header := json_t.object []
      let header := json_object_set_new header "name" (json_string (some name))
      let header := json_object_set_new header "value" (json_string (some value))
      some header
    | _ => none

/-- Source `har_headers_from_text` on a non-NULL text `s`: the contents of the array
`headers` after the call. -/
def har_headers_from_text (headers : List json_t) (s : List Char) : List json_t :=
  headers ++ (g_strsplit s "\r\n".toList 100).filterMap header_of_line

/-- The two tests made on every element by the header scans of `har_request_to_curl_slist`
(lines 211-223) and of `har_response_headers_from_byte_array` (lines 391-403), which are
the same code: record the value of a `content-encoding` / `content-type` header in the
enclosing document `doc`. -/
def scan_content_headers (doc : json_t) : List json_t → json_t
  | [] => doc
  | header :: rest =>
    let name := json_string_value (json_object_get (some header) "name")
    let doc :=
      if g_ascii_strcasecmp name "content-encoding".toList = 0 then
        json_object_set_new doc "_contentEncoding"
          (json_string (json_string_value (json_object_get (some header) "value")))
      else doc
    let doc :=
      if g_ascii_strcasecmp name "content-type".toList = 0 then
        json_object_set_new doc "_contentType"
          (json_string (json_string_value (json_object_get (some header) "value")))
      else doc
    scan_content_headers doc rest

/-- Source `har_request_to_curl_slist`: the request after the scan and the header lines. -/
def har_request_to_curl_slist (req : json_t) : Option (json_t × List (List Char)) :=
  let headers := json_object_get (some req) "headers"
  let req := scan_content_headers req (json_array_items headers)
  match har_headers_to_curl_slist headers with
  | some slist => some (req, slist)
  | none => none

/-! ## Request body builder -/

/-- One entry of the `struct curl_forms` array given to `curl_formadd`; the closing
`CURLFORM_END` entry is implicit in the end of the list. -/
inductive curl_forms where
  | CURLFORM_COPYNAME (value : List Char) : curl_forms
  | CURLFORM_COPYCONTENTS (value : List Char) : curl_forms
  | CURLFORM_FILE (value : List Char) : curl_forms
  | CURLFORM_FILENAME (value : List Char) : curl_forms
  | CURLFORM_CONTENTTYPE (value : List Char) : curl_forms
  | CURLFORM_CONTENTHEADER (headers : List (List Char)) : curl_forms

/-- One write `options[jx] = ...`: the index `jx` and the entry written, `none` for
`CURLFORM_END`. -/
abbrev option_write := Nat × Option curl_forms

/-- The step `if (part && json_is_string (part)) { options[jx] = ...; jx++; }` for the
member `key`; the state is `jx` and the writes made so far. -/
def write_string_option (param : json_t) (key : String) (mk : List Char → curl_forms)
    (st : Nat × List option_write) : Nat × List option_write :=
  match json_string_value (json_object_get (some param) key) with
  | some s => (st.1 + 1, st.2 ++ [(st.1, some (mk s))])
  | none => st

/-- Lines 259-308 for one object parameter: the writes into the array `options`, in
program order, from `jx = 0` to the closing `CURLFORM_END`; `strlen (NULL)` in
`har_headers_to_curl_slist` when a pair of `headers` lacks a string name or value. -/
def param_option_writes (param : json_t) : Option (List option_write) :=
  let st : Nat × List option_write := (0, [])
  let st := write_string_option param "name" curl_forms.CURLFORM_COPYNAME st
  let st := write_string_option param "value" curl_forms.CURLFORM_COPYCONTENTS st
  let st := write_string_option param "file" curl_forms.CURLFORM_FILE st
  let st := write_string_option param "fileName" curl_forms.CURLFORM_FILENAME st
  let st := write_string_option param "contentType" curl_forms.CURLFORM_CONTENTTYPE st
  let part := json_object_get (some param) "headers"
  if json_is_array part then
    match har_headers_to_curl_slist part with
    | some headers =>
      some (st.2 ++ [(st.1, some (curl_forms.CURLFORM_CONTENTHEADER headers)),
        (st.1 + 1, none)])
    | none => none
  else some (st.2 ++ [(st.1, none)])

/-- The option list that `curl_formadd (..., CURLFORM_ARRAY, options, CURLFORM_END)` finds
in `options` after the writes of lines 259-308 for one object parameter: the entries
written before the closing `CURLFORM_END`, in the order of the writes. -/
def param_options (param : json_t) : Option (List curl_forms) :=
  match param_option_writes param with
  | some writes => some (writes.filterMap Prod.snd)
  | none => none

/-- The `json_array_foreach` loop of `har_request_postdata_to_curl_httppost`: `result` is
the form built so far, one option list per field added; `curl_formadd` returns the
`CURLFORMcode` (0 on success) and adds nothing when it fails. -/
def httppost_loop (curl_formadd : List curl_forms → Nat) :
    List json_t → List (List curl_forms) → Option (List (List curl_forms))
  | [], result => some result
  | param :: rest, result =>
    if !json_is_object (some param) then httppost_loop curl_formadd rest result
    else match param_options param with
      | none => none
      | some options =>
        let status := curl_formadd options
        httppost_loop curl_formadd rest (if status = 0 then result ++ [options] else result)

/-- Source `har_request_postdata_to_curl_httppost`: the request after the call and the
form (empty for `NULL`). -/
def har_request_postdata_to_curl_httppost (curl_formadd : List curl_forms → Nat)
    (req : Option json_t) : Option (Option json_t × List (List curl_forms)) :=
  match req with
  | none => some (none, [])
  | some r =>
    if !json_is_object (some r) then some (some r, [])
    else
      let postdata := json_object_get (some r) "postData"
      if !json_is_object postdata then some (some r, [])
      else
        let part := json_object_get postdata "mimeType"
        let r := if json_is_string part then json_object_set_new r "_contentType" part else r
        let params := json_object_get postdata "params"
        if !json_is_array params then some (some r, [])
        else match httppost_loop curl_formadd (json_array_items params) [] with
          | some result => some (some r, result)
          | none => none

/-- Source `har_request_postdata_to_byte_array`: the returned status and the contents of
`bytes` after the call. -/
def har_request_postdata_to_byte_array (g_base64_decode : List Char → List Char)
    (req : Option json_t) (bytes : List Char) : Nat × List Char :=
  if !json_is_object req then (0, bytes)
  else
    let postdata := json_object_get req "postData"
    if !json_is_object postdata then (0, bytes)
    else
      let params := json_object_get postdata "params"
      let enc_part := json_object_get postdata "encoding"
      let text_part := json_object_get postdata "text"
      if params.isSome && text_part.isSome then (HAR_ERROR_TEXT_AND_PARAMS, bytes)
      else if params.isSome && json_is_object params then (0, bytes)
      else if text_part.isSome && json_is_string text_part then
        match json_string_value text_part with
        | some text =>
          if enc_part.isSome && json_is_string enc_part
              && decide (g_ascii_strcasecmp (json_string_value enc_part) "base64".toList ≠ 0) then
            (0, bytes ++ g_base64_decode text)
          else (0, bytes ++ text)
        | none => (0, bytes)
      else (0, bytes)

/-! ## Content decompressor -/

def MAX_WBITS : Nat := 15

def Z_OK : Int := 0

def Z_STREAM_END : Int := 1

def Z_NEED_DICT : Int := 2

def Z_ERRNO : Int := -1

def Z_STREAM_ERROR : Int := -2

def Z_DATA_ERROR : Int := -3

def Z_MEM_ERROR : Int := -4

def Z_BUF_ERROR : Int := -5

/-- Source `har_window_bits`. -/
def har_window_bits (content_encoding : Option (List Char)) : Int :=
  match content_encoding with
  | none => -1
  | some ce =>
    if g_ascii_strcasecmp (some ce) "gzip".toList = 0 then ((MAX_WBITS ||| 16 : Nat) : Int)
    else if g_ascii_strcasecmp (some ce) "deflate".toList = 0 then (MAX_WBITS : Int)
    else if g_ascii_strcasecmp (some ce) "deflate-w-o-zlib".toList = 0 then - (MAX_WBITS : Int)
    else 0

/-- What one call of zlib's `inflate` reports: the returned status, the bytes it wrote at
`next_out` (so `total_out` is their number) and the input it left unconsumed (so
`avail_in` is its length). -/
structure inflate_result where
  ret : Int
  out : List Char
  rest : List Char

/-- The zlib primitives: `inflateInit2 (windowBits)` returns a status;
`inflate (windowBits, input, avail_out)` runs on the initialised stream. -/
structure zlib where
  inflateInit2 : Int → Int
  inflate : Int → List Char → Nat → inflate_result

/-- Source `har_uncompress`: the returned status, the destination buffer and `*dest_len`
after the call.  `avail_in` and `avail_out` are 32-bit (`uInt`). -/
def har_uncompress (z : zlib) (dest_data : List Char) (dest_len : Nat) (src_data : List Char)
    (windowBits : Int) : Int × List Char × Nat :=
  let src_len := src_data.length
  let avail_in := src_len % 4294967296
  let avail_out := dest_len % 4294967296
  if src_len = 0 then (Z_DATA_ERROR, dest_data, dest_len)
  else
    let ret := z.inflateInit2 windowBits
    if ret ≠ Z_OK then (ret, dest_data, dest_len)
    else
      let r := z.inflate windowBits (src_data.take avail_in) avail_out
      let dest_data := r.out ++ dest_data.drop r.out.length
      if r.ret ≠ Z_STREAM_END then (r.ret, dest_data, dest_len)
      else (if r.ret = Z_STREAM_END then Z_OK else r.ret, dest_data, r.out.length)

/-- The conversion `(float) src_len`: the nearest value with a 24-bit significand, ties
to even. -/
def float_of_gsize (n : Nat) : Nat :=
  if n < 16777216 then n
  else
    let e := Nat.log2 n - 23
    let q := n / 2 ^ e
    let r := n % 2 ^ e
    let q := if 2 * r < 2 ^ e then q else if 2 ^ e < 2 * r then q + 1
      else if q % 2 = 0 then q else q + 1
    q * 2 ^ e

/-- Source `har_bytes_uncompress`; `junk i` is the byte found at offset `i` of the block
that `g_malloc` returns. -/
def har_bytes_uncompress (z : zlib) (junk : Nat → Char) (src : List Char) (windowBits : Int) :
    List Char :=
  let src_len := src.length
  let dest_len := 2 * float_of_gsize src_len + 24
  let dest_data := (List.range dest_len).map junk
  match har_uncompress z dest_data dest_len src windowBits with
  | (status, dest_data, dest_len) =>
    if status ≠ Z_OK then src
    else dest_data.take dest_len

/-- Source `har_byte_array_uncompress`: the conversions between `GByteArray` and `GBytes`
keep the bytes. -/
def har_byte_array_uncompress (z : zlib) (junk : Nat → Char) (src : List Char)
    (windowBits : Int) : List Char :=
  har_bytes_uncompress z junk src windowBits

/-- Lines 912-922 of `har_entry_from_curl_easy_getinfo`: the body buffer handed on to
`har_response_content_from_byte_array`. -/
def getinfo_body (z : zlib) (junk : Nat → Char) (resp : Option json_t)
    (harbodyout : List Char) : List Char :=
  match json_object_get resp "_contentEncoding" with
  | some part =>
    let content_encoding := json_string_value (some part)
    let windowBits := har_window_bits content_encoding
    if windowBits = -1 then harbodyout
    else if windowBits ≠ 0 then har_byte_array_uncompress z junk harbodyout windowBits
    else harbodyout
  | none => harbodyout

/-! ## Entry to request mapper -/

/-- One `curl_easy_setopt` call: the option and what was passed for it. -/
inductive curl_option where
  | CURLOPT_HTTPGET : curl_option
  | CURLOPT_POST : curl_option
  | CURLOPT_PUT : curl_option
  | CURLOPT_NOBODY : curl_option
  | CURLOPT_CUSTOMREQUEST (curl_method : List Char) : curl_option
  | CURLOPT_URL (url : Option (List Char)) : curl_option
  | CURLOPT_DEBUGDATA : curl_option
  | CURLOPT_DEBUGFUNCTION : curl_option
  | CURLOPT_VERBOSE : curl_option
  | CURLOPT_HTTPHEADER (headers : List (List Char)) : curl_option
  | CURLOPT_HTTPPOST (formpost : List (List curl_forms)) : curl_option
  | CURLOPT_POSTFIELDS (data : List Char) : curl_option
  | CURLOPT_POSTFIELDSIZE (len : Nat) : curl_option
  | CURLOPT_HEADERDATA : curl_option
  | CURLOPT_HEADERFUNCTION : curl_option
  | CURLOPT_WRITEDATA : curl_option
  | CURLOPT_WRITEFUNCTION : curl_option

/-- The easy handle, as the sequence of the options set on it so far. -/
abbrev CURL := List curl_option

/-- Source `har_method_to_curl_method`: the handle after the call (the status is
always `HAR_OK`). -/
def har_method_to_curl_method (method : List Char) (easy : CURL) : CURL :=
  if g_ascii_strcasecmp (some method) "GET".toList = 0 then
    easy ++ [curl_option.CURLOPT_HTTPGET]
  else if g_ascii_strcasecmp (some method) "POST".toList = 0 then
    easy ++ [curl_option.CURLOPT_POST]
  else if g_ascii_strcasecmp (some method) "PUT".toList = 0 then
    easy ++ [curl_option.CURLOPT_PUT]
  else if g_ascii_strcasecmp (some method) "HEAD".toList = 0 then
    easy ++ [curl_option.CURLOPT_NOBODY]
  else
    let curl_method := (method.take (min method.length 16)).map g_ascii_toupper
    easy ++ [curl_option.CURLOPT_CUSTOMREQUEST curl_method]

/-- The `json_array_foreach` loop of `har_request_to_curl_url`: the bytes appended to the
byte array, `s_len` bytes of the zero-filled block `s` per parameter; `strlen (NULL)`
when a name or a value is not a string. -/
def query_bytes (curl_easy_escape : List Char → List Char) : List json_t → Option (List Char)
  | [] => some []
  | pj :: rest =>
    match json_string_value (json_object_get (some pj) "name"),
          json_string_value (json_object_get (some pj) "value") with
    | some ks, some vs =>
      let ks := curl_easy_escape ks
      let vs := curl_easy_escape vs
      let s_len := ks.length + vs.length + 5
      let text := "&".toList ++ ks ++ "=".toList ++ vs
      let s := text ++ List.replicate (s_len - text.length) NUL
      match query_bytes curl_easy_escape rest with
      | some bytes => some (s ++ bytes)
      | none => none
    | _, _ => none

/-- Source `har_request_to_curl_url`: the handle after the call (the status is always
`HAR_OK`). -/
def har_request_to_curl_url (curl_easy_escape : List Char → List Char) (req : Option json_t)
    (easy : CURL) : Option CURL :=
  let raw_url := json_string_value (json_object_get req "url")
  let part := json_object_get req "queryString"
  if json_is_array part && decide (json_array_size part ≠ 0) then
    match raw_url with
    | none => none
    | some raw =>
      match query_bytes curl_easy_escape (json_array_items part) with
      | none => none
      | some appended =>
        let bytes := raw ++ appended ++ [NUL]
        some (easy ++ [curl_option.CURLOPT_URL (some (c_str bytes))])
  else some (easy ++ [curl_option.CURLOPT_URL raw_url])

/-- What `har_entry_to_curl_easy_setopt` leaves behind: the returned status, the entry,
the easy handle and the request body buffer. -/
structure setopt_result where
  status : Nat
  entry : json_t
  easy : CURL
  harbodyin : List Char

/-- Source `har_entry_to_curl_easy_setopt`.  `req` and `resp` point into the entry, so
what is done to them is written back to the members `request` and `response`. -/
def har_entry_to_curl_easy_setopt (curl_easy_escape : List Char → List Char)
    (g_base64_decode : List Char → List Char) (curl_formadd : List curl_forms → Nat)
    (obj : json_t) (easy : CURL) (harbodyin : List Char) : Option setopt_result :=
  match json_object_get (some obj) "request" with
  | none => some ⟨HAR_ERROR_NO_REQUEST, obj, easy, harbodyin⟩
  | some req =>
    match json_object_get (some obj) "response" with
    | none => some ⟨HAR_ERROR_NO_RESPONSE, obj, easy, harbodyin⟩
    | some resp =>
      match json_string_value (json_object_get (some req) "method") with
      | none => some ⟨HAR_ERROR_NO_METHOD, obj, easy, harbodyin⟩
      | some method =>
        let easy := har_method_to_curl_method method easy
        if !json_is_string (json_object_get (some req) "url") then
          some ⟨HAR_ERROR_NO_URL, obj, easy, harbodyin⟩
        else
          match har_request_to_curl_url curl_easy_escape (some req) easy with
          | none => none
          | some easy =>
            let easy := easy ++ [curl_option.CURLOPT_DEBUGDATA,
              curl_option.CURLOPT_DEBUGFUNCTION, curl_option.CURLOPT_VERBOSE]
            match har_request_to_curl_slist req with
            | none => none
            | some (req, headers) =>
              let easy :=
                if headers ≠ [] then easy ++ [curl_option.CURLOPT_HTTPHEADER headers] else easy
              let part := json_object_get (some req) "postData"
              let req :=
                if !json_is_object part then
                  json_object_set_new req "postData" (some (json_t.object []))
                else req
              match har_request_postdata_to_byte_array g_base64_decode (some req) harbodyin with
              | (status, harbodyin) =>
                match har_request_postdata_to_curl_httppost curl_formadd (some req) with
                | none => none
                | some (req, formpost) =>
                  let obj := json_object_set_new obj "request" req
                  if status ≠ 0 then some ⟨status, obj, easy, harbodyin⟩
                  else
                    let easy :=
                      if !formpost.isEmpty then easy ++ [curl_option.CURLOPT_HTTPPOST formpost]
                      else if harbodyin.length ≠ 0 then
                        easy ++ [curl_option.CURLOPT_POSTFIELDS harbodyin,
                          curl_option.CURLOPT_POSTFIELDSIZE harbodyin.length]
                      else easy
                    let resp := json_object_set_new resp "headers" (some (json_t.array []))
                    let easy := easy ++ [curl_option.CURLOPT_HEADERDATA,
                      curl_option.CURLOPT_HEADERFUNCTION]
                    let resp := json_object_set_new resp "content" (some (json_t.object []))
                    let easy := easy ++ [curl_option.CURLOPT_WRITEDATA,
                      curl_option.CURLOPT_WRITEFUNCTION]
                    let obj := json_object_set_new obj "response" (some resp)
                    some ⟨HAR_OK, obj, easy, harbodyin⟩

/-! ## Process entry point -/

/-- How far `main` gets before line 1003: it either returns an exit code without calling
`curl_easy_perform`, or reaches that call with the entry, handle and body buffer prepared
by `har_entry_to_curl_easy_setopt`. -/
inductive main_setup where
  | exit (code : Nat) : main_setup
  | perform (st : setopt_result) : main_setup

/-- Lines 968-971 of `main`: the entry gets a fresh `response` object with `headersSize`
and `bodySize` 0 (nothing happens when the entry is not an object). -/
def main_response (entry : json_t) : json_t :=
  let entry := json_object_set_new entry "response" (some (json_t.object []))
  match json_object_get (some entry) "response" with
  | none => entry
  | some resp =>
    let resp := json_object_set_new resp "headersSize" (some (json_t.integer 0))
    let resp := json_object_set_new resp "bodySize" (some (json_t.integer 0))
    json_object_set_new entry "response" (some resp)

/-- Lines 961-985 of `main`: the entry handed to `har_entry_to_curl_easy_setopt`, or the
exit code returned before. `input` is what `json_loadf` returns. -/
def main_prepare (global_verbose : Bool) (input : Option json_t) : Except Nat json_t :=
  match input with
  | none => .error HAR_ERROR_WITH_JSON
  | some entry =>
    let entry := main_response entry
    match json_object_get (some entry) "request" with
    | none => .error HAR_ERROR_NO_REQUEST
    | some req =>
      if !json_is_object (some req) then .error HAR_ERROR_NO_REQUEST
      else
        let part := json_object_get (some req) "postData"
        if !json_is_object part then
          let req := json_object_set_new req "postData" (some (json_t.object []))
          let req := json_object_set_new req "headersSize" (some (json_t.integer 0))
          let req := json_object_set_new req "bodySize" (some (json_t.integer 0))
          let req :=
            if global_verbose then
              match json_object_get (some req) "postData" with
              | some part =>
                json_object_set_new req "postData"
                  (some (json_object_set_new part "size" (some (json_t.integer 0))))
              | none => req
            else req
          .ok (json_object_set_new entry "request" (some req))
        else .ok entry

/-- Lines 961-999 of `main`, everything before `curl_easy_perform`.  `curl_easy_init` is
what the call of that name returns (`none` for NULL); the three byte arrays start empty. -/
def main_before_perform (curl_easy_escape : List Char → List Char)
    (g_base64_decode : List Char → List Char) (curl_formadd : List curl_forms → Nat)
    (global_verbose : Bool) (input : Option json_t) (curl_easy_init : Option CURL) :
    Option main_setup :=
  match main_prepare global_verbose input with
  | .error code => some (main_setup.exit code)
  | .ok entry =>
    match curl_easy_init with
    | none => some (main_setup.exit HAR_ERROR_WITH_CURL)
    | some easy =>
      match har_entry_to_curl_easy_setopt curl_easy_escape g_base64_decode curl_formadd
          entry easy [] with
      | none => none
      | some st => if st.status ≠ HAR_OK then some (main_setup.exit st.status)
        else some (main_setup.perform st)

/-! ## Response path and transport callbacks -/

/-- The pointer `(const char *) bytes->data` of a `GByteArray` read as a C string, as
`json_string` and `g_strsplit` do: NULL for an array that holds no byte (nothing was ever
allocated for it); otherwise the bytes of the array followed by what the memory holds
after them (`beyond`), up to the first NUL, since the array is not zero-terminated. -/
def byte_array_data (beyond : List Char) (bytes : List Char) : Option (List Char) :=
  if bytes = [] then none else some (c_str (bytes ++ beyond ++ [NUL]))

/-- Source `har_response_content_from_byte_array`: the response after the call.
`g_utf8_validate` is applied to the `size` bytes of the array, `g_base64_encode` returns
a C string. -/
def har_response_content_from_byte_array (g_utf8_validate : List Char → Bool)
    (g_base64_encode : List Char → List Char) (beyond : List Char) (resp : json_t)
    (bytes : List Char) : json_t :=
  let text := byte_array_data beyond bytes
  match json_object_get (some resp) "content" with
  | none => resp
  | some content =>
    let content :=
      if g_utf8_validate bytes then json_object_set_new content "text" (json_string text)
      else
        let text := g_base64_encode bytes
        let content := json_object_set_new content "text" (json_string (some text))
        json_object_set_new content "encoding" (json_string (some "base64".toList))
    json_object_set_new resp "content" (some content)

/-- The case `CURLINFO_DATA_IN` of `har_debug_callback` (lines 620-629): the entry after
the call for a chunk of `size` bytes. -/
def har_debug_callback_data_in (size : Nat) (entry : json_t) : json_t :=
  match json_object_get (some entry) "response" with
  | none => entry
  | some resp =>
    if !json_is_object (some resp) then entry
    else
      match json_object_get (some resp) "content" with
      | none => entry
      | some part =>
        if !json_is_object (some part) then entry
        else
          let resp := json_object_set_new resp "bodySize" (some (json_t.integer size))
          let part := json_object_set_new part "size" (some (json_t.integer size))
          let resp := json_object_set_new resp "content" (some part)
          json_object_set_new entry "response" (some resp)

/-- Source `har_write_callback`: the byte array after the call and the returned count;
`ptr` stands for the `size * nitems` bytes found at `ptr`. -/
def har_write_callback (ptr : List Char) (bytes : List Char) : List Char × Nat :=
  let ptrlen := ptr.length
  (bytes ++ ptr, ptrlen)

/-! # Part 2: vocabulary of the statements

Specification-level definitions (written after the wording of the claims) and the
concrete inputs used by witnesses and counterexamples. -/

/-- The JSON object with a string `name` and a string `value`: a header pair or a
query parameter. -/
def name_value (p : List Char × List Char) : json_t :=
  json_t.object [("name", json_t.string p.1), ("value", json_t.string p.2)]

/-- Equality of two strings ignoring ASCII case. -/
@[reducible] def caseless_eq (s t : List Char) : Prop :=
  s.map g_ascii_tolower = t.map g_ascii_tolower

/-- Hexadecimal digit, upper case. -/
def hex_digit (n : Nat) : Char :=
  if n < 10 then Char.ofNat (48 + n) else Char.ofNat (55 + n)

/-- An instance of the parameter `curl_easy_escape`, after libcurl's documentation: the
unreserved characters `A-Z a-z 0-9 - . _ ~` are kept, every other byte becomes `%XX`. -/
def percent_escape (s : List Char) : List Char :=
  s.flatMap fun c =>
    if c.isAlphanum || c == '-' || c == '.' || c == '_' || c == '~' then [c]
    else ['%', hex_digit (c.toNat / 16 % 16), hex_digit (c.toNat % 16)]

/-- A request with the given `url` and `queryString`. -/
def url_request (u : List Char) (params : List (List Char × List Char)) : json_t :=
  json_t.object [("url", json_t.string u), ("queryString", json_t.array (params.map name_value))]

/-- A request whose `postData` has the given members. -/
def postdata_request (members : List (String × json_t)) : json_t :=
  json_t.object [("postData", json_t.object members)]

/-- Every element of the array `j` has a string `name` and a string `value` (vacuous
when `j` is not an array). -/
def string_pairs (j : Option json_t) : Prop :=
  ∀ pj ∈ json_array_items j,
    (json_string_value (json_object_get (some pj) "name")).isSome = true
    ∧ (json_string_value (json_object_get (some pj) "value")).isSome = true

/-- The lists that the mapper turns into C strings are well formed: the elements of the
request's `headers` and `queryString`, and of the `headers` of every entry of
`postData.params`, have a string `name` and a string `value`. -/
def well_formed_lists (req : Option json_t) : Prop :=
  string_pairs (json_object_get req "headers")
  ∧ string_pairs (json_object_get req "queryString")
  ∧ ∀ param ∈ json_array_items (json_object_get (json_object_get req "postData") "params"),
      string_pairs (json_object_get (some param) "headers")

/-- The result of the Entry to Request Mapper in the words of the specification: the
first failing check decides. -/
def mapper_status_spec (g_base64_decode : List Char → List Char) (obj : json_t) : Nat :=
  let req := json_object_get (some obj) "request"
  if req.isNone then HAR_ERROR_NO_REQUEST
  else if (json_object_get (some obj) "response").isNone then HAR_ERROR_NO_RESPONSE
  else if !json_is_string (json_object_get req "method") then HAR_ERROR_NO_METHOD
  else if !json_is_string (json_object_get req "url") then HAR_ERROR_NO_URL
  else if (har_request_postdata_to_byte_array g_base64_decode req []).1
      = HAR_ERROR_TEXT_AND_PARAMS then HAR_ERROR_TEXT_AND_PARAMS
  else HAR_OK

/-- The call of `inflate` made by `har_uncompress` for `har_bytes_uncompress`: the
source cut to `avail_in`, the destination of `2 * (float) src_len + 24` bytes. -/
def inflate_call (z : zlib) (src : List Char) (windowBits : Int) : inflate_result :=
  z.inflate windowBits (src.take (src.length % 4294967296))
    ((2 * float_of_gsize src.length + 24) % 4294967296)

/-- The status that `har_uncompress` returns to `har_bytes_uncompress`. -/
def uncompress_status (z : zlib) (junk : Nat → Char) (src : List Char) (windowBits : Int) :
    Int :=
  (har_uncompress z ((List.range (2 * float_of_gsize src.length + 24)).map junk)
    (2 * float_of_gsize src.length + 24) src windowBits).1

/-- A zlib whose `inflate` reaches the end of the stream after two input bytes, having
written "hi", and leaves the rest of the input unconsumed (trailing bytes after the
stream). -/
def zlib_trailing_input : zlib :=
  ⟨fun _ => Z_OK, fun _ src _ => ⟨Z_STREAM_END, "hi".toList, src.drop 2⟩⟩

/-- A zlib whose `inflate` fills the whole destination with `a` and returns `Z_OK`
because the stream has not ended (the output does not fit). -/
def zlib_output_full : zlib :=
  ⟨fun _ => Z_OK, fun _ src avail_out => ⟨Z_OK, List.replicate avail_out 'a', src.drop 2⟩⟩

/-- A zlib whose `inflate` reports corrupt data. -/
def zlib_data_error : zlib :=
  ⟨fun _ => Z_OK, fun _ src _ => ⟨Z_DATA_ERROR, [], src⟩⟩

/-- An entry whose request has a method, a URL and one header without name and value. -/
def entry_with_nameless_header : json_t :=
  json_t.object
    [("request", json_t.object
        [("method", json_t.string "GET".toList), ("url", json_t.string "http://x.test/".toList),
          ("headers", json_t.array [json_t.object []])]),
      ("response", json_t.object [])]

/-- An entry whose request has a URL, one header without name and value, and no method. -/
def entry_with_nameless_header_no_method : json_t :=
  json_t.object
    [("request", json_t.object
        [("url", json_t.string "http://x.test/".toList),
          ("headers", json_t.array [json_t.object []])]),
      ("response", json_t.object [])]

/-- An entry whose request has a URL, both `params` and `text` in its `postData`, and no
method. -/
def entry_conflict_without_method : json_t :=
  json_t.object
    [("request", json_t.object
        [("url", json_t.string "http://x.test/".toList),
          ("postData", json_t.object
            [("params", json_t.array [json_t.object [("name", json_t.string "a".toList)]]),
              ("text", json_t.string "x".toList)])])]

/-- An entry whose request has a method, a URL, and both `params` and `text` in its
`postData`, the only parameter having a header without name and value. -/
def entry_conflict_with_nameless_field_header : json_t :=
  json_t.object
    [("request", json_t.object
        [("method", json_t.string "POST".toList), ("url", json_t.string "http://x.test/".toList),
          ("postData", json_t.object
            [("params", json_t.array [json_t.object [("name", json_t.string "a".toList),
                ("headers", json_t.array [json_t.object []])]]),
              ("text", json_t.string "x".toList)])])]

/-- An entry with a `response` whose request has a method, a URL, and both `params` and
`text` in its `postData`. -/
def entry_with_params_and_text : json_t :=
  json_t.object
    [("request", json_t.object
        [("method", json_t.string "POST".toList), ("url", json_t.string "http://x.test/".toList),
          ("postData", json_t.object
            [("params", json_t.array [name_value ("a".toList, "b".toList)]),
              ("text", json_t.string "x".toList)])]),
      ("response", json_t.object [])]

/-- The lines joined by CRLF. -/
def crlf_join : List (List Char) → List Char
  | [] => []
  | [l] => l
  | l :: l2 :: ls => l ++ "\r\n".toList ++ crlf_join (l2 :: ls)

/-- The CRLF-separated lines of a text, without any bound on their number. -/
def crlf_lines : List Char → List (List Char)
  | [] => [[]]
  | [c] => [[c]]
  | c :: c2 :: rest =>
    if c = '\r' ∧ c2 = '\n' then [] :: crlf_lines rest
    else match crlf_lines (c2 :: rest) with
      | l :: ls => (c :: l) :: ls
      | [] => [[c]]

/-- The header pair of a line in the words of the specification: none without a colon;
otherwise the name is the text before the first colon and the value the text after it,
less one leading space. -/
def line_pair (line : List Char) : Option json_t :=
  if ':' ∈ line then
    let name := line.takeWhile (fun c => c != ':')
    let value := (line.dropWhile (fun c => c != ':')).drop 1
    let value := if value.head? = some ' ' then value.drop 1 else value
    some (name_value (name, value))
  else none

/-- The name of a header line in the words of the specification: the text before the
line's first colon. -/
def line_name (line : List Char) : List Char :=
  line.takeWhile (fun c => c != ':')

/-- The value of a header line in the words of the specification: the text after the
line's first colon, less one leading space. -/
def line_value (line : List Char) : List Char :=
  let value := (line.dropWhile (fun c => c != ':')).drop 1
  if value.head? = some ' ' then value.drop 1 else value

/-- The line `name: value` of a header pair. -/
def header_line (p : List Char × List Char) : List Char :=
  p.1 ++ ": ".toList ++ p.2

/-- One hundred and one header pairs `a: b`. -/
def pairs_101 : List (List Char × List Char) :=
  List.replicate 101 ("a".toList, "b".toList)

/-- A header text of one hundred and one lines `a:b`. -/
def text_101 : List Char :=
  crlf_join (List.replicate 101 "a:b".toList)

/-- A header text of one line whose value is the single byte `FF`, which is not valid
UTF-8. -/
def text_bad_value : List Char :=
  "X-Bad: \xff".toList

/-- One incoming-body chunk as the transport delivers it: it is reported to
`har_debug_callback` as `CURLINFO_DATA_IN` and appended by `har_write_callback`.  The
state is the entry and the incoming-body accumulator `harbodyout`. -/
def receive_chunk (st : json_t × List Char) (chunk : List Char) : json_t × List Char :=
  (har_debug_callback_data_in chunk.length st.1, (har_write_callback chunk st.2).1)

/-- The chunks of one transaction, in the order of their delivery. -/
def receive_body (chunks : List (List Char)) (st : json_t × List Char) :
    json_t × List Char :=
  chunks.foldl receive_chunk st

/-- An entry as `har_entry_to_curl_easy_setopt` leaves it: the response has sizes 0, no
header and an empty `content`. -/
def prepared_entry : json_t :=
  json_t.object
    [("request", json_t.object
        [("method", json_t.string "GET".toList), ("url", json_t.string "http://x.test/".toList),
          ("postData", json_t.object [])]),
      ("response", json_t.object
        [("headersSize", json_t.integer 0), ("bodySize", json_t.integer 0),
          ("headers", json_t.array []), ("content", json_t.object [])])]

/-- The response of `prepared_entry`. -/
def prepared_response : json_t :=
  json_t.object
    [("headersSize", json_t.integer 0), ("bodySize", json_t.integer 0),
      ("headers", json_t.array []), ("content", json_t.object [])]

/-- An instance of the parameter `g_utf8_validate` on ASCII buffers: the buffers whose
bytes all lie between 1 and 127 are valid (the empty one included), as `g_utf8_validate`
with an explicit length finds them. -/
def ascii_validate (bytes : List Char) : Bool :=
  bytes.all fun c => decide (0 < c.toNat ∧ c.toNat < 128)

/-- The line `name: value` of a pair that has a string `name` and a string `value`. -/
def pair_line (pj : json_t) : Option (List Char) :=
  match json_string_value (json_object_get (some pj) "name"),
        json_string_value (json_object_get (some pj) "value") with
  | some n, some v => some (n ++ ": ".toList ++ v)
  | _, _ => none

/-- What `pairsToTransportHeaders` yields in the words of the specification: a list of
lines, or the failure `MalformedHeader`. -/
inductive transport_headers where
  | lines (ls : List (List Char)) : transport_headers
  | MalformedHeader : transport_headers

/-- The operation `pairsToTransportHeaders` in the words of the specification: one line
per pair in input order, and `MalformedHeader` as soon as a pair lacks a string name or
a string value. -/
def pairsToTransportHeaders (pairs : List json_t) : transport_headers :=
  if pairs.all (fun p => (pair_line p).isSome) then
    transport_headers.lines (pairs.filterMap pair_line)
  else transport_headers.MalformedHeader

/-- A header list whose only pair has a name and no value. -/
def pairs_without_value : List json_t :=
  [json_t.object [("name", json_t.string "Host".toList)]]

/-- The option for the member `key` of a parameter when that member is a string, no
option otherwise. -/
def string_option (param : json_t) (key : String) (mk : List Char → curl_forms) :
    List curl_forms :=
  match json_string_value (json_object_get (some param) key) with
  | some s => [mk s]
  | none => []

/-- The option list of one multipart field in the words of the specification: the
options for those of `name`, `value`, `file`, `fileName`, `contentType` that are strings,
in that order, then the option for `headers` when it is an array (`headers` is then the
header list made of it). -/
def field_options (param : json_t) (headers : Option (List (List Char))) : List curl_forms :=
  [("name", curl_forms.CURLFORM_COPYNAME), ("value", curl_forms.CURLFORM_COPYCONTENTS),
    ("file", curl_forms.CURLFORM_FILE), ("fileName", curl_forms.CURLFORM_FILENAME),
    ("contentType", curl_forms.CURLFORM_CONTENTTYPE)].filterMap
      (fun km => (json_string_value (json_object_get (some param) km.1)).map km.2)
    ++ (match headers with
        | some h => [curl_forms.CURLFORM_CONTENTHEADER h]
        | none => [])

/-- The header list of a field: the one made of `headers` when that member is an array. -/
def field_headers (param : json_t) : Option (List (List Char)) :=
  if json_is_array (json_object_get (some param) "headers") then
    har_headers_to_curl_slist (json_object_get (some param) "headers")
  else none

/-- A request whose only multipart parameter has a name and a header without name. -/
def request_with_nameless_field_header : json_t :=
  postdata_request [("params", json_t.array
    [json_t.object [("name", json_t.string "a".toList),
      ("headers", json_t.array [json_t.object []])]])]

/-- A multipart parameter with all six members. -/
def full_param : json_t :=
  json_t.object [("name", json_t.string "a".toList), ("value", json_t.string "b".toList),
    ("file", json_t.string "c".toList), ("fileName", json_t.string "d".toList),
    ("contentType", json_t.string "e".toList),
    ("headers", json_t.array [name_value ("X".toList, "y".toList)])]

/-- An instance of the parameter `curl_formadd`: a field that has nothing but one option
is refused as incomplete (`CURL_FORMADD_INCOMPLETE`, 5), every other field is added. -/
def formadd_complete_fields (options : List curl_forms) : Nat :=
  if options.length ≤ 1 then 5 else 0

/-- The `params` of `multipart_request`: a parameter with all six members, a number, a
parameter with a name only and a parameter with a name and a value. -/
def multipart_params : List json_t :=
  [full_param, json_t.integer 5, json_t.object [("name", json_t.string "n".toList)],
    name_value ("k".toList, "v".toList)]

/-- A request whose `postData` has a `mimeType` and the parameters `multipart_params`. -/
def multipart_request : json_t :=
  postdata_request [("mimeType", json_t.string "multipart/form-data".toList),
    ("params", json_t.array multipart_params)]

theorem c_str_append_NUL (a b : List Char) (h : ∀ c ∈ a, c ≠ NUL) :
    c_str (a ++ NUL :: b) = a := by
  induction a with
  | nil => simp [c_str]
  | cons x xs ih =>
    have hx : x ≠ NUL := h x (List.mem_cons_self _ _)
    have hxs : ∀ c ∈ xs, c ≠ NUL := fun c hc => h c (List.mem_cons_of_mem _ hc)
    have := ih hxs
    simp only [c_str] at this ⊢
    simp [List.takeWhile_cons, hx, this]

/-- The checker on some well-formed texts (ASCII, sequences of two, three and four bytes)
and on ill-formed ones: a byte that starts no sequence, a truncated sequence, overlong
forms, a surrogate, a code point above `10FFFF`, a missing continuation byte. -/
theorem utf8_check_string_examples :
    utf8_check_string "Content-Type".toList = true
    ∧ utf8_check_string [Char.ofNat 195, Char.ofNat 169] = true
    ∧ utf8_check_string [Char.ofNat 226, Char.ofNat 130, Char.ofNat 172] = true
    ∧ utf8_check_string [Char.ofNat 240, Char.ofNat 159, Char.ofNat 152, Char.ofNat 128] = true
    ∧ utf8_check_string [Char.ofNat 255] = false
    ∧ utf8_check_string [Char.ofNat 128] = false
    ∧ utf8_check_string [Char.ofNat 195] = false
    ∧ utf8_check_string [Char.ofNat 192, Char.ofNat 128] = false
    ∧ utf8_check_string [Char.ofNat 224, Char.ofNat 128, Char.ofNat 128] = false
    ∧ utf8_check_string [Char.ofNat 237, Char.ofNat 160, Char.ofNat 128] = false
    ∧ utf8_check_string [Char.ofNat 244, Char.ofNat 144, Char.ofNat 128, Char.ofNat 128] = false
    ∧ utf8_check_string [Char.ofNat 195, 'a'] = false
    ∧ utf8_check_string ['a', Char.ofNat 195, Char.ofNat 169, 'b'] = true := by
  decide

theorem toNat_injective (a b : Char) (h : a.toNat = b.toNat) : a = b := by
  rw [← Char.ofNat_toNat a, ← Char.ofNat_toNat b, h]

theorem toNat_ne_zero (c : Char) (h : c ≠ NUL) : c.toNat ≠ 0 := by
  intro h0
  apply h
  rw [← Char.ofNat_toNat c, h0]
  rfl

theorem strcasecmp_loop_eq_zero_iff (s : List Char) :
    ∀ t : List Char, (∀ c ∈ s, c ≠ NUL) → (∀ c ∈ t, c ≠ NUL) →
      (strcasecmp_loop s t = 0 ↔ caseless_eq s t) := by
  induction s with
  | nil =>
    intro t _ ht
    cases t with
    | nil => simp [strcasecmp_loop, caseless_eq]
    | cons c2 t =>
      have := toNat_ne_zero c2 (ht c2 (List.mem_cons_self _ _))
      simp only [strcasecmp_loop, caseless_eq, List.map_nil, List.map_cons]
      constructor
      · intro h; omega
      · intro h; simp at h
  | cons c1 s ih =>
    intro t hs ht
    cases t with
    | nil =>
      have := toNat_ne_zero c1 (hs c1 (List.mem_cons_self _ _))
      simp only [strcasecmp_loop, caseless_eq, List.map_nil, List.map_cons]
      constructor
      · intro h; omega
      · intro h; simp at h
    | cons c2 t =>
      have hs2 : ∀ c ∈ s, c ≠ NUL := fun c hc => hs c (List.mem_cons_of_mem _ hc)
      have ht2 : ∀ c ∈ t, c ≠ NUL := fun c hc => ht c (List.mem_cons_of_mem _ hc)
      have ih2 := ih t hs2 ht2
      simp only [strcasecmp_loop, caseless_eq, List.map_cons, List.cons.injEq] at ih2 ⊢
      by_cases hc : g_ascii_tolower c1 = g_ascii_tolower c2
      · simp only [hc, ne_eq, not_true_eq_false, if_false, true_and]
        exact ih2
      · simp only [ne_eq, hc, not_false_eq_true, if_true, false_and, iff_false]
        intro h
        apply hc
        apply toNat_injective
        omega

/-! ## Documents -/

theorem members_get_set_ne (k k2 : String) (v : json_t) (h : k ≠ k2) :
    ∀ ms : List (String × json_t), members_get k (members_set k2 v ms) = members_get k ms := by
  intro ms
  induction ms with
  | nil => simp [members_set, members_get, Ne.symm h]
  | cons m ms ih =>
    obtain ⟨k3, w⟩ := m
    by_cases h3 : k3 = k2
    · subst h3
      simp [members_set, members_get, Ne.symm h]
    · by_cases h4 : k3 = k
      · subst h4
        simp [members_set, members_get, h3]
      · simp [members_set, members_get, h3, h4, ih]

theorem members_get_set_eq (k : String) (v : json_t) :
    ∀ ms : List (String × json_t), members_get k (members_set k v ms) = some v := by
  intro ms
  induction ms with
  | nil => simp [members_set, members_get]
  | cons m ms ih =>
    obtain ⟨k3, w⟩ := m
    by_cases h3 : k3 = k
    · simp [members_set, members_get, h3]
    · simp [members_set, members_get, h3, ih]

theorem json_object_get_set_new_ne (o : json_t) (k k2 : String) (v : Option json_t)
    (h : k ≠ k2) :
    json_object_get (some (json_object_set_new o k2 v)) k = json_object_get (some o) k := by
  cases o <;> cases v <;> simp [json_object_set_new, json_object_get, members_get_set_ne _ _ _ h]

theorem json_is_object_set_new (o : json_t) (k : String) (v : Option json_t) :
    json_is_object (some (json_object_set_new o k v)) = json_is_object (some o) := by
  cases o <;> cases v <;> simp [json_object_set_new, json_is_object]

theorem json_object_get_set_new_eq (ms : List (String × json_t)) (k : String) (v : json_t) :
    json_object_get (some (json_object_set_new (json_t.object ms) k (some v))) k = some v := by
  simp [json_object_set_new, json_object_get, members_get_set_eq]

theorem scan_content_headers_get (k : String) (h1 : k ≠ "_contentEncoding")
    (h2 : k ≠ "_contentType") (hs : List json_t) :
    ∀ doc : json_t, json_object_get (some (scan_content_headers doc hs)) k
      = json_object_get (some doc) k := by
  induction hs with
  | nil => intro doc; rfl
  | cons h hs ih =>
    intro doc
    simp only [scan_content_headers]
    rw [ih]
    split <;> split <;> simp [json_object_get_set_new_ne _ _ _ _ h1,
      json_object_get_set_new_ne _ _ _ _ h2]

theorem scan_content_headers_is_object (hs : List json_t) :
    ∀ doc : json_t, json_is_object (some (scan_content_headers doc hs))
      = json_is_object (some doc) := by
  induction hs with
  | nil => intro doc; rfl
  | cons h hs ih =>
    intro doc
    simp only [scan_content_headers]
    rw [ih]
    split <;> split <;> simp [json_is_object_set_new]

theorem json_is_string_iff (j : Option json_t) :
    json_is_string j = true ↔ ∃ s, json_string_value j = some s := by
  cases j with
  | none => simp [json_is_string, json_string_value]
  | some v => cases v <;> simp [json_is_string, json_string_value]

/-! ## Header codec -/

theorem crlf_lines_strstr (s : List Char) :
    match strstr_cut "\r\n".toList s with
    | none => crlf_lines s = [s]
    | some (a, b) => crlf_lines s = a :: crlf_lines b := by
  induction s with
  | nil => simp [strstr_cut, crlf_lines]
  | cons c cs ih =>
    cases cs with
    | nil =>
      simp [strstr_cut, crlf_lines, List.isPrefixOf]
    | cons c2 rest =>
      by_cases hc : c = '\r' ∧ c2 = '\n'
      · obtain ⟨h1, h2⟩ := hc
        subst h1 h2
        simp [strstr_cut, crlf_lines, List.isPrefixOf]
      · have hp : List.isPrefixOf "\r\n".toList (c :: c2 :: rest) = false := by
          simp [List.isPrefixOf]
          intro h1 h2
          exact hc ⟨h1.symm, h2.symm⟩
        have e : strstr_cut "\r\n".toList (c :: c2 :: rest)
            = match strstr_cut "\r\n".toList (c2 :: rest) with
              | some (a, b) => some (c :: a, b)
              | none => none := by
          rw [strstr_cut]
          simp only [hp, Bool.false_eq_true, if_false]
        have e2 : crlf_lines (c :: c2 :: rest)
            = match crlf_lines (c2 :: rest) with
              | l :: ls => (c :: l) :: ls
              | [] => [[c]] := by
          rw [crlf_lines]
          simp only [hc, if_false]
        rw [e, e2]
        revert ih
        cases strstr_cut "\r\n".toList (c2 :: rest) with
        | none =>
          intro ih
          simp only at ih
          simp [ih]
        | some p =>
          obtain ⟨a, b⟩ := p
          intro ih
          simp only at ih
          simp [ih]

theorem crlf_lines_ne_nil (s : List Char) : crlf_lines s ≠ [] := by
  have h := crlf_lines_strstr s
  revert h
  cases strstr_cut "\r\n".toList s with
  | none => intro h; simp only at h; simp [h]
  | some p => obtain ⟨a, b⟩ := p; intro h; simp only at h; simp [h]

theorem g_strsplit_loop_crlf_lines (n : Nat) :
    ∀ s : List Char, 1 ≤ n → (crlf_lines s).length ≤ n →
      g_strsplit_loop "\r\n".toList n s = crlf_lines s := by
  induction n with
  | zero => intro s h; omega
  | succ n ih =>
    intro s _ hlen
    have h := crlf_lines_strstr s
    rw [g_strsplit_loop]
    revert h
    cases hcut : strstr_cut "\r\n".toList s with
    | none =>
      intro h
      simp only at h
      simp [h]
    | some p =>
      obtain ⟨a, b⟩ := p
      intro h
      simp only at h
      have hb : 1 ≤ (crlf_lines b).length := by
        have := crlf_lines_ne_nil b
        cases hx : crlf_lines b with
        | nil => exact absurd hx this
        | cons _ _ => simp
      rw [h] at hlen
      simp only [List.length_cons] at hlen
      have hn : n ≠ 0 := by omega
      simp only [hn, if_false]
      rw [ih b (by omega) (by omega), h]

theorem strstr_cut_colon (line : List Char) :
    strstr_cut ":".toList line
      = if ':' ∈ line then
          some (line.takeWhile (fun c => c != ':'),
            (line.dropWhile (fun c => c != ':')).drop 1)
        else none := by
  induction line with
  | nil => simp [strstr_cut]
  | cons c cs ih =>
    by_cases hc : c = ':'
    · subst hc
      simp [strstr_cut, List.isPrefixOf]
    · have hp : List.isPrefixOf ":".toList (c :: cs) = false := by
        simp [List.isPrefixOf]
        exact fun h => hc h.symm
      rw [strstr_cut]
      simp only [hp, Bool.false_eq_true, if_false, ih]
      by_cases hm : ':' ∈ cs
      · simp [hm, hc, List.takeWhile_cons, List.dropWhile_cons]
      · simp [hm, hc, Ne.symm hc]

theorem json_string_valid (v : List Char) (h : utf8_check_string v = true) :
    json_string (some v) = some (json_t.string v) := by
  simp only [json_string, h, if_true]

theorem line_pair_eq (line : List Char) :
    line_pair line
      = if ':' ∈ line then some (name_value (line_name line, line_value line)) else none :=
  rfl

theorem header_of_line_eq (line : List Char)
    (h : ':' ∈ line →
      utf8_check_string (line_name line) = true ∧ utf8_check_string (line_value line) = true) :
    header_of_line line = line_pair line := by
  cases line with
  | nil => simp [header_of_line, line_pair]
  | cons c cs =>
    have hsplit : g_strsplit (c :: cs) ":".toList 2
        = match strstr_cut ":".toList (c :: cs) with
          | none => [c :: cs]
          | some (a, b) => [a, b] := by
      simp only [g_strsplit, g_strsplit_loop]
      simp
    rw [line_pair_eq]
    by_cases hm : ':' ∈ c :: cs
    · obtain ⟨h1, h2⟩ := h hm
      have hv : (match ((c :: cs).dropWhile (fun c => c != ':')).drop 1 with
          | ' ' :: v => v
          | v => v) = line_value (c :: cs) := by
        simp only [line_value]
        generalize ((c :: cs).dropWhile (fun c => c != ':')).drop 1 = value
        cases value with
        | nil => rfl
        | cons v vs =>
          by_cases hv : v = ' '
          · subst hv
            simp
          · simp [hv]
      simp only [header_of_line, hsplit, strstr_cut_colon, if_pos hm, List.length_cons, hv]
      have hn : List.takeWhile (fun c => c != ':') (c :: cs) = line_name (c :: cs) := rfl
      rw [hn, json_string_valid _ h1, json_string_valid _ h2]
      simp
      rfl
    · simp only [header_of_line, hsplit, strstr_cut_colon, if_neg hm, List.length_cons]
      simp

theorem har_headers_from_text_lines (headers : List json_t) (s : List Char)
    (h : (crlf_lines s).length ≤ 100)
    (hutf : ∀ line ∈ crlf_lines s, ':' ∈ line →
      utf8_check_string (line_name line) = true ∧ utf8_check_string (line_value line) = true) :
    har_headers_from_text headers s = headers ++ (crlf_lines s).filterMap line_pair := by
  simp only [har_headers_from_text, g_strsplit]
  by_cases hs : s = []
  · subst hs
    simp [crlf_lines, line_pair]
  · have h100 : (if (100 : Int) < 1 then 2147483647 else (100 : Int).toNat) = 100 := by decide
    rw [if_neg hs, h100, g_strsplit_loop_crlf_lines 100 s (by decide) h]
    congr 1
    apply List.filterMap_congr
    intro line hline
    exact header_of_line_eq line (hutf line hline)

theorem strstr_cut_no_cr (l : List Char) (h : '\r' ∉ l) :
    strstr_cut "\r\n".toList l = none := by
  induction l with
  | nil => rfl
  | cons c cs ih =>
    have hc : c ≠ '\r' := fun e => h (by simp [e])
    have hcs : '\r' ∉ cs := fun e => h (List.mem_cons_of_mem _ e)
    have hp : List.isPrefixOf "\r\n".toList (c :: cs) = false := by
      simp [List.isPrefixOf]
      exact fun e => absurd e.symm hc
    rw [strstr_cut]
    simp only [hp, Bool.false_eq_true, if_false, ih hcs]

theorem strstr_cut_at_crlf (l t : List Char) (h : '\r' ∉ l) :
    strstr_cut "\r\n".toList (l ++ "\r\n".toList ++ t) = some (l, t) := by
  induction l with
  | nil => simp [strstr_cut, List.isPrefixOf]
  | cons c cs ih =>
    have hc : c ≠ '\r' := fun e => h (by simp [e])
    have hcs : '\r' ∉ cs := fun e => h (List.mem_cons_of_mem _ e)
    have hp : List.isPrefixOf "\r\n".toList (c :: (cs ++ "\r\n".toList ++ t)) = false := by
      simp [List.isPrefixOf]
      exact fun e => absurd e.symm hc
    have e : (c :: cs) ++ "\r\n".toList ++ t = c :: (cs ++ "\r\n".toList ++ t) := by simp
    rw [e, strstr_cut]
    simp only [hp, Bool.false_eq_true, if_false, ih hcs]

theorem crlf_lines_join (ls : List (List Char)) (hne : ls ≠ [])
    (h : ∀ l ∈ ls, '\r' ∉ l) : crlf_lines (crlf_join ls) = ls := by
  induction ls with
  | nil => exact absurd rfl hne
  | cons l rest ih =>
    have hl : '\r' ∉ l := h l (List.mem_cons_self _ _)
    cases rest with
    | nil =>
      have h1 := crlf_lines_strstr l
      rw [strstr_cut_no_cr l hl] at h1
      simpa [crlf_join] using h1
    | cons l2 rest2 =>
      have h1 := crlf_lines_strstr (l ++ "\r\n".toList ++ crlf_join (l2 :: rest2))
      rw [strstr_cut_at_crlf l _ hl] at h1
      simp only at h1
      rw [crlf_join, h1, ih (by simp) (fun x hx => h x (List.mem_cons_of_mem _ hx))]

theorem line_pair_of_pair (n v : List Char) (h : ':' ∉ n) :
    line_pair (n ++ ": ".toList ++ v) = some (name_value (n, v)) := by
  have hn : ∀ c ∈ n, (c != ':') = true := by
    intro c hc
    simp only [bne_iff_ne, ne_eq]
    exact fun e => h (e ▸ hc)
  have e : n ++ ": ".toList ++ v = n ++ (':' :: ' ' :: v) := by simp
  have hmem : ':' ∈ n ++ (':' :: ' ' :: v) := by simp
  have htake : (n ++ (':' :: ' ' :: v)).takeWhile (fun c => c != ':') = n := by
    rw [List.takeWhile_append_of_pos hn]
    simp
  have hdrop : (n ++ (':' :: ' ' :: v)).dropWhile (fun c => c != ':') = ':' :: ' ' :: v := by
    rw [List.dropWhile_append_of_pos hn]
    simp
  rw [e]
  simp only [line_pair, hmem, if_true, htake, hdrop]
  simp

theorem line_parts_of_pair (n v : List Char) (h : ':' ∉ n) :
    line_name (n ++ ": ".toList ++ v) = n ∧ line_value (n ++ ": ".toList ++ v) = v := by
  have hn : ∀ c ∈ n, (c != ':') = true := by
    intro c hc
    simp only [bne_iff_ne, ne_eq]
    exact fun e => h (e ▸ hc)
  have e : n ++ ": ".toList ++ v = n ++ (':' :: ' ' :: v) := by simp
  have htake : (n ++ (':' :: ' ' :: v)).takeWhile (fun c => c != ':') = n := by
    rw [List.takeWhile_append_of_pos hn]
    simp
  have hdrop : (n ++ (':' :: ' ' :: v)).dropWhile (fun c => c != ':') = ':' :: ' ' :: v := by
    rw [List.dropWhile_append_of_pos hn]
    simp
  rw [e]
  simp only [line_name, line_value, htake, hdrop]
  simp

theorem headers_to_lines_name_value (pairs : List (List Char × List Char)) :
    headers_to_lines (pairs.map name_value) = some (pairs.map header_line) := by
  induction pairs with
  | nil => rfl
  | cons p ps ih =>
    have hq : json_string_value (json_object_get (some (name_value p)) "name") = some p.1
        ∧ json_string_value (json_object_get (some (name_value p)) "value") = some p.2 :=
      ⟨rfl, rfl⟩
    simp only [List.map_cons, headers_to_lines, hq.1, hq.2, ih, header_line]

theorem filterMap_line_pair (pairs : List (List Char × List Char))
    (h : ∀ p ∈ pairs, ':' ∉ p.1) :
    (pairs.map header_line).filterMap line_pair = pairs.map name_value := by
  induction pairs with
  | nil => rfl
  | cons p ps ih =>
    have hp := line_pair_of_pair p.1 p.2 (h p (List.mem_cons_self _ _))
    simp only [List.map_cons, header_line, List.filterMap_cons, hp]
    have := ih (fun q hq => h q (List.mem_cons_of_mem _ hq))
    simp only [header_line] at this
    rw [this]

/-! ## Mapper -/

theorem query_bytes_name_value (esc : List Char → List Char)
    (ps : List (List Char × List Char)) :
    query_bytes esc (ps.map name_value)
      = some (ps.flatMap fun q =>
          ("&".toList ++ esc q.1 ++ "=".toList ++ esc q.2) ++ [NUL, NUL, NUL]) := by
  induction ps with
  | nil => rfl
  | cons q qs ih =>
    have hlen : (esc q.1).length + (esc q.2).length + 5
        - ("&".toList ++ esc q.1 ++ "=".toList ++ esc q.2).length = 3 := by
      simp
      omega
    have hq : json_string_value (json_object_get (some (name_value q)) "name") = some q.1
        ∧ json_string_value (json_object_get (some (name_value q)) "value") = some q.2 :=
      ⟨rfl, rfl⟩
    simp only [List.map_cons, query_bytes, hq.1, hq.2, ih, hlen, List.flatMap_cons]
    rfl

theorem byte_array_status_congr (dec : List Char → List Char) (r1 r2 : Option json_t)
    (b1 b2 : List Char) (ho : json_is_object r1 = json_is_object r2)
    (hp : json_object_get r1 "postData" = json_object_get r2 "postData") :
    (har_request_postdata_to_byte_array dec r1 b1).1
      = (har_request_postdata_to_byte_array dec r2 b2).1 := by
  simp only [har_request_postdata_to_byte_array, ho, hp]
  split_ifs <;> (try split) <;> rfl

theorem byte_array_status_values (dec : List Char → List Char) (r : Option json_t)
    (b : List Char) :
    (har_request_postdata_to_byte_array dec r b).1 = 0
      ∨ (har_request_postdata_to_byte_array dec r b).1 = HAR_ERROR_TEXT_AND_PARAMS := by
  simp only [har_request_postdata_to_byte_array]
  split_ifs <;> (try split) <;> simp

theorem byte_array_status_no_postdata (dec : List Char → List Char) (r : Option json_t)
    (b : List Char) (h : json_is_object (json_object_get r "postData") = false) :
    (har_request_postdata_to_byte_array dec r b).1 = 0 := by
  simp [har_request_postdata_to_byte_array, h]

theorem headers_to_lines_some (xs : List json_t)
    (h : ∀ pj ∈ xs, (json_string_value (json_object_get (some pj) "name")).isSome = true
      ∧ (json_string_value (json_object_get (some pj) "value")).isSome = true) :
    ∃ ls, headers_to_lines xs = some ls := by
  induction xs with
  | nil => exact ⟨[], rfl⟩
  | cons x xs ih =>
    obtain ⟨ls, hls⟩ := ih (fun pj hpj => h pj (List.mem_cons_of_mem _ hpj))
    obtain ⟨hn, hv⟩ := h x (List.mem_cons_self _ _)
    obtain ⟨ks, hks⟩ := Option.isSome_iff_exists.mp hn
    obtain ⟨vs, hvs⟩ := Option.isSome_iff_exists.mp hv
    simp only [headers_to_lines, hks, hvs, hls]
    exact ⟨_, rfl⟩

theorem query_bytes_some (esc : List Char → List Char) (xs : List json_t)
    (h : ∀ pj ∈ xs, (json_string_value (json_object_get (some pj) "name")).isSome = true
      ∧ (json_string_value (json_object_get (some pj) "value")).isSome = true) :
    ∃ bs, query_bytes esc xs = some bs := by
  induction xs with
  | nil => exact ⟨[], rfl⟩
  | cons x xs ih =>
    obtain ⟨ls, hls⟩ := ih (fun pj hpj => h pj (List.mem_cons_of_mem _ hpj))
    obtain ⟨hn, hv⟩ := h x (List.mem_cons_self _ _)
    obtain ⟨ks, hks⟩ := Option.isSome_iff_exists.mp hn
    obtain ⟨vs, hvs⟩ := Option.isSome_iff_exists.mp hv
    simp only [query_bytes, hks, hvs, hls]
    exact ⟨_, rfl⟩

theorem field_options_strings (param : json_t) (headers : Option (List (List Char))) :
    field_options param headers
      = string_option param "name" curl_forms.CURLFORM_COPYNAME
        ++ string_option param "value" curl_forms.CURLFORM_COPYCONTENTS
        ++ string_option param "file" curl_forms.CURLFORM_FILE
        ++ string_option param "fileName" curl_forms.CURLFORM_FILENAME
        ++ string_option param "contentType" curl_forms.CURLFORM_CONTENTTYPE
        ++ (match headers with
            | some h => [curl_forms.CURLFORM_CONTENTHEADER h]
            | none => []) := by
  simp only [field_options, string_option, List.filterMap_cons, List.filterMap_nil]
  cases json_string_value (json_object_get (some param) "name") <;>
  cases json_string_value (json_object_get (some param) "value") <;>
  cases json_string_value (json_object_get (some param) "file") <;>
  cases json_string_value (json_object_get (some param) "fileName") <;>
  cases json_string_value (json_object_get (some param) "contentType") <;> simp

theorem write_string_option_inv (param : json_t) (key : String) (mk : List Char → curl_forms)
    (st : Nat × List option_write) (opts : List curl_forms) (n : Nat)
    (h1 : st.2.map Prod.fst = List.range st.1) (h2 : st.2.map Prod.snd = opts.map some)
    (h3 : st.1 ≤ n) :
    (write_string_option param key mk st).2.map Prod.fst
        = List.range (write_string_option param key mk st).1
      ∧ (write_string_option param key mk st).2.map Prod.snd
        = (opts ++ string_option param key mk).map some
      ∧ (write_string_option param key mk st).1 ≤ n + 1 := by
  simp only [write_string_option, string_option]
  cases json_string_value (json_object_get (some param) key) with
  | none => exact ⟨by simpa using h1, by simpa using h2, by simp; omega⟩
  | some s =>
    refine ⟨?_, ?_, ?_⟩
    · simp [List.range_succ, h1]
    · simp [h2]
    · simp; omega

theorem param_option_writes_spec (param : json_t)
    (h : string_pairs (json_object_get (some param) "headers")) :
    ∃ ws, param_option_writes param = some ws
      ∧ ws.map Prod.snd = (field_options param (field_headers param)).map some ++ [none]
      ∧ ws.map Prod.fst = List.range ws.length
      ∧ ws.length ≤ 7 := by
  obtain ⟨ls, hls⟩ := headers_to_lines_some _ h
  have hsl : har_headers_to_curl_slist (json_object_get (some param) "headers") = some ls :=
    hls
  have s0 : ((0, []) : Nat × List option_write).2.map Prod.fst
      = List.range ((0, []) : Nat × List option_write).1 := rfl
  have t0 : ((0, []) : Nat × List option_write).2.map Prod.snd
      = ([] : List curl_forms).map some := rfl
  obtain ⟨a1, b1, c1⟩ := write_string_option_inv param "name"
    curl_forms.CURLFORM_COPYNAME (0, []) [] 0 s0 t0 (le_refl _)
  obtain ⟨a2, b2, c2⟩ := write_string_option_inv param "value"
    curl_forms.CURLFORM_COPYCONTENTS _ _ _ a1 b1 c1
  obtain ⟨a3, b3, c3⟩ := write_string_option_inv param "file"
    curl_forms.CURLFORM_FILE _ _ _ a2 b2 c2
  obtain ⟨a4, b4, c4⟩ := write_string_option_inv param "fileName"
    curl_forms.CURLFORM_FILENAME _ _ _ a3 b3 c3
  obtain ⟨a5, b5, c5⟩ := write_string_option_inv param "contentType"
    curl_forms.CURLFORM_CONTENTTYPE _ _ _ a4 b4 c4
  rw [field_options_strings]
  simp only [param_option_writes, field_headers, hsl]
  generalize write_string_option param "contentType" curl_forms.CURLFORM_CONTENTTYPE
    (write_string_option param "fileName" curl_forms.CURLFORM_FILENAME
      (write_string_option param "file" curl_forms.CURLFORM_FILE
        (write_string_option param "value" curl_forms.CURLFORM_COPYCONTENTS
          (write_string_option param "name" curl_forms.CURLFORM_COPYNAME (0, []))))) = st
    at a5 b5 c5 ⊢
  have hlen : st.2.length = st.1 := by
    have := congrArg List.length a5
    simpa using this
  simp only [List.nil_append] at b5
  by_cases harr : json_is_array (json_object_get (some param) "headers") = true
  · simp only [harr, if_true]
    refine ⟨_, rfl, ?_, ?_, ?_⟩
    · simp [b5]
    · simp [a5, hlen, List.range_succ]
    · simp [hlen]
      omega
  · simp only [harr, if_false, Bool.false_eq_true]
    refine ⟨_, rfl, ?_, ?_, ?_⟩
    · simp [b5]
    · simp [a5, hlen, List.range_succ]
    · simp [hlen]
      omega

theorem filterMap_snd_of_map_snd (ws : List option_write) (opts : List curl_forms)
    (h : ws.map Prod.snd = opts.map some ++ [none]) : ws.filterMap Prod.snd = opts := by
  have e : ws.filterMap Prod.snd = (ws.map Prod.snd).filterMap id := by
    rw [List.filterMap_map]
    rfl
  rw [e, h]
  simp [List.filterMap_append, List.filterMap_map]

theorem param_options_field_options (param : json_t)
    (h : string_pairs (json_object_get (some param) "headers")) :
    param_options param = some (field_options param (field_headers param)) := by
  obtain ⟨ws, h1, h2, _, _⟩ := param_option_writes_spec param h
  simp only [param_options, h1, filterMap_snd_of_map_snd ws _ h2]

theorem param_options_some (param : json_t)
    (h : string_pairs (json_object_get (some param) "headers")) :
    ∃ opts, param_options param = some opts :=
  ⟨_, param_options_field_options param h⟩

theorem httppost_loop_fields (fa : List curl_forms → Nat) (ps : List json_t)
    (h : ∀ param ∈ ps, string_pairs (json_object_get (some param) "headers")) :
    ∀ acc, httppost_loop fa ps acc
      = some (acc ++ (((ps.filter (fun p => json_is_object (some p))).map
          (fun p => field_options p (field_headers p))).filter
            (fun options => decide (fa options = 0)))) := by
  induction ps with
  | nil => intro acc; simp [httppost_loop]
  | cons x xs ih =>
    intro acc
    have ih2 := ih (fun q hq => h q (List.mem_cons_of_mem _ hq))
    by_cases hobj : json_is_object (some x) = true
    · simp only [httppost_loop, hobj, Bool.not_true, Bool.false_eq_true, if_false,
        param_options_field_options x (h x (List.mem_cons_self _ _)), ih2, List.filter_cons,
        if_true, List.map_cons]
      by_cases hfa : fa (field_options x (field_headers x)) = 0
      · simp [hfa]
      · simp [hfa]
    · have hobj2 : json_is_object (some x) = false := by simpa using hobj
      simp only [httppost_loop, hobj2, Bool.not_false, if_true, ih2, List.filter_cons,
        Bool.false_eq_true, if_false]

theorem httppost_loop_some (fa : List curl_forms → Nat) (ps : List json_t)
    (h : ∀ param ∈ ps, string_pairs (json_object_get (some param) "headers")) :
    ∀ acc, ∃ out, httppost_loop fa ps acc = some out := by
  induction ps with
  | nil => intro acc; exact ⟨acc, rfl⟩
  | cons x xs ih =>
    intro acc
    have ih2 := ih (fun q hq => h q (List.mem_cons_of_mem _ hq))
    obtain ⟨opts, hopts⟩ := param_options_some x (h x (List.mem_cons_self _ _))
    simp only [httppost_loop, hopts]
    split_ifs <;> exact ih2 _

theorem httppost_some (fa : List curl_forms → Nat) (req : json_t)
    (h : ∀ param ∈ json_array_items
        (json_object_get (json_object_get (some req) "postData") "params"),
      string_pairs (json_object_get (some param) "headers")) :
    ∃ out, har_request_postdata_to_curl_httppost fa (some req) = some out := by
  obtain ⟨out, hout⟩ := httppost_loop_some fa _ h []
  simp only [har_request_postdata_to_curl_httppost, hout]
  split_ifs <;> exact ⟨_, rfl⟩

theorem slist_request (req r : json_t) (hs : List (List Char))
    (h : har_request_to_curl_slist req = some (r, hs)) :
    r = scan_content_headers req (json_array_items (json_object_get (some req) "headers")) := by
  simp only [har_request_to_curl_slist] at h
  split at h
  · simp at h
    exact h.1.symm
  · simp at h

theorem prepared_status (dec : List Char → List Char) (req : json_t) (b : List Char) :
    (har_request_postdata_to_byte_array dec
      (some (if (!json_is_object (json_object_get (some (scan_content_headers req
            (json_array_items (json_object_get (some req) "headers")))) "postData")) = true then
          json_object_set_new (scan_content_headers req
            (json_array_items (json_object_get (some req) "headers"))) "postData"
            (some (json_t.object []))
        else scan_content_headers req
            (json_array_items (json_object_get (some req) "headers")))) b).1
      = (har_request_postdata_to_byte_array dec (some req) []).1 := by
  have hget := scan_content_headers_get "postData" (by decide) (by decide)
    (json_array_items (json_object_get (some req) "headers")) req
  have hobj := scan_content_headers_is_object
    (json_array_items (json_object_get (some req) "headers")) req
  generalize scan_content_headers req
    (json_array_items (json_object_get (some req) "headers")) = r1 at hget hobj
  by_cases hp : json_is_object (json_object_get (some r1) "postData") = true
  · simp only [hp, Bool.not_true, Bool.false_eq_true, if_false]
    exact byte_array_status_congr dec _ _ _ _ hobj hget
  · have hp2 : json_is_object (json_object_get (some r1) "postData") = false := by
      simpa using hp
    simp only [hp2, Bool.not_false, if_true]
    rw [byte_array_status_no_postdata dec (some req) [] (by rw [← hget]; exact hp2)]
    cases r1 with
    | object ms =>
      simp [har_request_postdata_to_byte_array, json_is_object, json_object_set_new,
        json_object_get, members_get_set_eq, members_get]
    | _ => simp [har_request_postdata_to_byte_array, json_is_object, json_object_set_new]

theorem setopt_status (esc : List Char → List Char) (dec : List Char → List Char)
    (fa : List curl_forms → Nat) (obj : json_t) (easy : CURL) (body : List Char)
    (st : setopt_result)
    (h : har_entry_to_curl_easy_setopt esc dec fa obj easy body = some st) :
    st.status = mapper_status_spec dec obj := by
  unfold mapper_status_spec
  unfold har_entry_to_curl_easy_setopt at h
  cases hreq : json_object_get (some obj) "request" with
  | none =>
    simp only [hreq] at h
    simp at h
    subst h
    simp
  | some req =>
    simp only [hreq] at h
    cases hresp : json_object_get (some obj) "response" with
    | none =>
      simp only [hresp] at h
      simp at h
      subst h
      simp
    | some resp =>
      simp only [hresp] at h
      cases hm : json_string_value (json_object_get (some req) "method") with
      | none =>
        simp only [hm] at h
        simp at h
        subst h
        have : json_is_string (json_object_get (some req) "method") = false := by
          cases hj : json_is_string (json_object_get (some req) "method") with
          | false => rfl
          | true =>
            obtain ⟨s, hs⟩ := (json_is_string_iff _).mp hj
            rw [hm] at hs
            cases hs
        simp [this]
      | some method =>
        simp only [hm] at h
        have hms : json_is_string (json_object_get (some req) "method") = true :=
          (json_is_string_iff _).mpr ⟨method, hm⟩
        cases hu : json_is_string (json_object_get (some req) "url") with
        | false =>
          simp only [hu] at h
          simp at h
          subst h
          simp [hms, hu]
        | true =>
          simp only [hu, Bool.not_true, Bool.false_eq_true, if_false] at h
          cases hurl : har_request_to_curl_url esc (some req)
              (har_method_to_curl_method method easy) with
          | none => simp only [hurl, reduceCtorEq] at h
          | some e =>
            simp only [hurl] at h
            cases hsl : har_request_to_curl_slist req with
            | none => simp only [hsl, reduceCtorEq] at h
            | some p =>
              obtain ⟨r1, hdrs⟩ := p
              have hr1 := slist_request req r1 hdrs hsl
              simp only [hsl] at h
              have hst := prepared_status dec req body
              rw [← hr1] at hst
              have hval := byte_array_status_values dec (some req) []
              cases hpost : har_request_postdata_to_curl_httppost fa
                  (some (if (!json_is_object (json_object_get (some r1) "postData")) = true then
                    json_object_set_new r1 "postData" (some (json_t.object []))
                  else r1)) with
              | none => simp only [hpost, reduceCtorEq] at h
              | some q =>
                obtain ⟨r3, formpost⟩ := q
                simp only [hpost] at h
                rw [hst] at h
                split at h
                next hne =>
                  simp only [Option.some.injEq] at h
                  subst h
                  rcases hval with h0 | h133
                  · exact absurd h0 hne
                  · simp [hms, hu, h133]
                next heq =>
                  simp only [Option.some.injEq] at h
                  subst h
                  have h0 : (har_request_postdata_to_byte_array dec (some req) []).1 = 0 := by
                    simpa using heq
                  simp [hms, hu, h0, HAR_ERROR_TEXT_AND_PARAMS, HAR_OK]

theorem url_some (esc : List Char → List Char) (req : json_t) (easy : CURL)
    (hu : json_is_string (json_object_get (some req) "url") = true)
    (hq : string_pairs (json_object_get (some req) "queryString")) :
    ∃ e, har_request_to_curl_url esc (some req) easy = some e := by
  obtain ⟨u, hu2⟩ := (json_is_string_iff _).mp hu
  obtain ⟨bs, hbs⟩ := query_bytes_some esc _ hq
  simp only [har_request_to_curl_url, hu2, hbs]
  split_ifs <;> exact ⟨_, rfl⟩

theorem slist_some (req : json_t) (hh : string_pairs (json_object_get (some req) "headers")) :
    ∃ p, har_request_to_curl_slist req = some p := by
  obtain ⟨ls, hls⟩ := headers_to_lines_some _ hh
  simp only [har_request_to_curl_slist, har_headers_to_curl_slist, hls]
  exact ⟨_, rfl⟩

theorem prepared_params (req : json_t) :
    json_array_items (json_object_get (json_object_get
      (some (if (!json_is_object (json_object_get (some (scan_content_headers req
            (json_array_items (json_object_get (some req) "headers")))) "postData")) = true then
          json_object_set_new (scan_content_headers req
            (json_array_items (json_object_get (some req) "headers"))) "postData"
            (some (json_t.object []))
        else scan_content_headers req
            (json_array_items (json_object_get (some req) "headers")))) "postData") "params")
      = json_array_items (json_object_get (json_object_get (some req) "postData") "params")
      ∨ json_array_items (json_object_get (json_object_get
      (some (if (!json_is_object (json_object_get (some (scan_content_headers req
            (json_array_items (json_object_get (some req) "headers")))) "postData")) = true then
          json_object_set_new (scan_content_headers req
            (json_array_items (json_object_get (some req) "headers"))) "postData"
            (some (json_t.object []))
        else scan_content_headers req
            (json_array_items (json_object_get (some req) "headers")))) "postData") "params")
      = [] := by
  have hget := scan_content_headers_get "postData" (by decide) (by decide)
    (json_array_items (json_object_get (some req) "headers")) req
  generalize scan_content_headers req
    (json_array_items (json_object_get (some req) "headers")) = r1 at hget
  by_cases hp : json_is_object (json_object_get (some r1) "postData") = true
  · left
    simp only [hp, Bool.not_true, Bool.false_eq_true, if_false]
    rw [hget]
  · right
    have hp2 : json_is_object (json_object_get (some r1) "postData") = false := by
      simpa using hp
    simp only [hp2, Bool.not_false, if_true]
    cases r1 with
    | object ms =>
      simp [json_object_set_new, json_object_get, members_get_set_eq, members_get,
        json_array_items]
    | _ => simp [json_object_set_new, json_object_get, json_array_items]

theorem setopt_total (esc : List Char → List Char) (dec : List Char → List Char)
    (fa : List curl_forms → Nat) (obj : json_t) (easy : CURL) (body : List Char)
    (hwf : well_formed_lists (json_object_get (some obj) "request")) :
    ∃ st, har_entry_to_curl_easy_setopt esc dec fa obj easy body = some st := by
  unfold har_entry_to_curl_easy_setopt
  cases hreq : json_object_get (some obj) "request" with
  | none => exact ⟨_, rfl⟩
  | some req =>
    rw [hreq] at hwf
    obtain ⟨hh, hq, hp⟩ := hwf
    cases hresp : json_object_get (some obj) "response" with
    | none => exact ⟨⟨HAR_ERROR_NO_RESPONSE, obj, easy, body⟩, rfl⟩
    | some resp =>
      cases hm : json_string_value (json_object_get (some req) "method") with
      | none =>
        simp only [hm]
        exact ⟨_, rfl⟩
      | some method =>
        cases hu : json_is_string (json_object_get (some req) "url") with
        | false =>
          simp only [hm, hu]
          exact ⟨_, rfl⟩
        | true =>
          obtain ⟨e, he⟩ := url_some esc req (har_method_to_curl_method method easy) hu hq
          obtain ⟨p, hsl⟩ := slist_some req hh
          obtain ⟨r1, hdrs⟩ := p
          have hr1 := slist_request req r1 hdrs hsl
          have hpp := prepared_params req
          rw [← hr1] at hpp
          have hpost := httppost_some fa
            (if (!json_is_object (json_object_get (some r1) "postData")) = true then
              json_object_set_new r1 "postData" (some (json_t.object []))
            else r1)
            (by
              rcases hpp with h1 | h1
              · rw [h1]; exact hp
              · rw [h1]; intro param hparam; cases hparam)
          obtain ⟨q, hq2⟩ := hpost
          obtain ⟨r3, formpost⟩ := q
          simp only [hm, hu, Bool.not_true, Bool.false_eq_true, if_false, he, hsl, hq2]
          have key : ∀ (c : Prop) [Decidable c] (a b : setopt_result),
              ∃ st, (if c then some a else some b) = some st := by
            intro c _ a b
            by_cases hc : c <;> simp [hc]
          exact key _ _ _

theorem setopt_early (esc : List Char → List Char) (dec : List Char → List Char)
    (fa : List curl_forms → Nat) (obj : json_t) (easy : CURL) (body : List Char)
    (h : mapper_status_spec dec obj ∈ [HAR_ERROR_NO_REQUEST, HAR_ERROR_NO_RESPONSE,
      HAR_ERROR_NO_METHOD, HAR_ERROR_NO_URL]) :
    ∃ st, har_entry_to_curl_easy_setopt esc dec fa obj easy body = some st := by
  unfold har_entry_to_curl_easy_setopt
  cases hreq : json_object_get (some obj) "request" with
  | none => exact ⟨_, rfl⟩
  | some req =>
    cases hresp : json_object_get (some obj) "response" with
    | none => exact ⟨⟨HAR_ERROR_NO_RESPONSE, obj, easy, body⟩, rfl⟩
    | some resp =>
      cases hm : json_string_value (json_object_get (some req) "method") with
      | none =>
        simp only [hm]
        exact ⟨_, rfl⟩
      | some method =>
        cases hu : json_is_string (json_object_get (some req) "url") with
        | false =>
          simp only [hm, hu]
          exact ⟨_, rfl⟩
        | true =>
          exfalso
          have hms : json_is_string (json_object_get (some req) "method") = true :=
            (json_is_string_iff _).mpr ⟨method, hm⟩
          have hspec : mapper_status_spec dec obj = HAR_ERROR_TEXT_AND_PARAMS
              ∨ mapper_status_spec dec obj = HAR_OK := by
            simp only [mapper_status_spec, hreq, hresp, hms, hu, Option.isNone_some,
              Bool.false_eq_true, if_false, Bool.not_true]
            split_ifs
            · exact Or.inl rfl
            · exact Or.inr rfl
          rcases hspec with e | e
          · rw [e] at h
            revert h
            decide
          · rw [e] at h
            revert h
            decide

theorem entry_with_nameless_header_no_method_early :
    mapper_status_spec (fun s => s) entry_with_nameless_header_no_method
      ∈ [HAR_ERROR_NO_REQUEST, HAR_ERROR_NO_RESPONSE, HAR_ERROR_NO_METHOD, HAR_ERROR_NO_URL] := by
  decide

theorem mapper_status_spec_values (dec : List Char → List Char) (obj : json_t) :
    mapper_status_spec dec obj = 0
      ∨ (129 ≤ mapper_status_spec dec obj ∧ mapper_status_spec dec obj ≤ 133) := by
  unfold mapper_status_spec
  simp only [HAR_ERROR_NO_REQUEST, HAR_ERROR_NO_RESPONSE, HAR_ERROR_NO_METHOD, HAR_ERROR_NO_URL,
    HAR_ERROR_TEXT_AND_PARAMS, HAR_OK]
  split_ifs <;> simp

theorem byte_array_conflict (dec : List Char → List Char) (req : json_t)
    (members : List (String × json_t)) (params text : json_t) (bytes : List Char)
    (hpd : json_object_get (some req) "postData" = some (json_t.object members))
    (hparams : members_get "params" members = some params)
    (htext : members_get "text" members = some text) :
    (har_request_postdata_to_byte_array dec (some req) bytes).1
        = HAR_ERROR_TEXT_AND_PARAMS := by
  have hreq : json_is_object (some req) = true := by
    cases req <;> simp [json_object_get] at hpd
    rfl
  have h1 : json_object_get (some (json_t.object members)) "params" = some params := hparams
  have h2 : json_object_get (some (json_t.object members)) "text" = some text := htext
  have hobj : json_is_object (some (json_t.object members)) = true := rfl
  simp [har_request_postdata_to_byte_array, hreq, hpd, h1, h2, hobj]

theorem main_response_request (entry : json_t) :
    json_object_get (some (main_response entry)) "request"
      = json_object_get (some entry) "request" := by
  have h1 : ∀ e v, json_object_get (some (json_object_set_new e "response" v)) "request"
      = json_object_get (some e) "request" :=
    fun e v => json_object_get_set_new_ne e "request" "response" v (by decide)
  simp only [main_response]
  split <;> simp [h1]

theorem main_response_response (ms : List (String × json_t)) :
    (json_object_get (some (main_response (json_t.object ms))) "response").isSome = true := by
  simp [main_response, json_object_set_new, json_object_get, members_get_set_eq]

theorem main_prepare_no_request (verbose : Bool) (entry : json_t)
    (h : json_object_get (some entry) "request" = none) :
    main_prepare verbose (some entry) = .error HAR_ERROR_NO_REQUEST := by
  simp only [main_prepare, main_response_request, h]

theorem main_prepare_ok (verbose : Bool) (entry req : json_t)
    (h : json_object_get (some entry) "request" = some req)
    (hpd : json_is_object (json_object_get (some req) "postData") = true) :
    ∃ prepared, main_prepare verbose (some entry) = .ok prepared
      ∧ json_object_get (some prepared) "request" = some req
      ∧ (json_object_get (some prepared) "response").isSome = true := by
  have hro : json_is_object (some req) = true := by
    cases req <;> simp [json_object_get, json_is_object] at hpd ⊢
  cases entry with
  | object ms =>
    refine ⟨main_response (json_t.object ms), ?_, ?_, main_response_response ms⟩
    · simp only [main_prepare, main_response_request, h, hro, hpd]
      simp
    · rw [main_response_request, h]
  | _ => simp [json_object_get] at h

theorem entry_with_params_and_text_well_formed :
    well_formed_lists (json_object_get (some entry_with_params_and_text) "request") := by
  refine ⟨?_, ?_, ?_⟩
  · intro pj h; cases h
  · intro pj h; cases h
  · intro param h
    have : param = name_value ("a".toList, "b".toList) := by
      simpa [entry_with_params_and_text, json_object_get, members_get, json_array_items]
        using h
    subst this
    intro pj h; cases h

/-! ## Decompressor -/

theorem har_uncompress_status (z : zlib) (dest_data : List Char) (dest_len : Nat)
    (src : List Char) (windowBits : Int) :
    (har_uncompress z dest_data dest_len src windowBits).1
      = if src.length = 0 then Z_DATA_ERROR
        else if z.inflateInit2 windowBits ≠ Z_OK then z.inflateInit2 windowBits
        else if (z.inflate windowBits (src.take (src.length % 4294967296))
            (dest_len % 4294967296)).ret ≠ Z_STREAM_END then
          (z.inflate windowBits (src.take (src.length % 4294967296))
            (dest_len % 4294967296)).ret
        else Z_OK := by
  unfold har_uncompress
  by_cases h0 : src.length = 0
  · simp [h0]
  · by_cases h1 : z.inflateInit2 windowBits = Z_OK
    · by_cases h2 : (z.inflate windowBits (src.take (src.length % 4294967296))
          (dest_len % 4294967296)).ret = Z_STREAM_END
      · simp [h0, h1, h2]
      · simp [h0, h1, h2]
    · simp [h0, h1]

theorem uncompress_status_eq (z : zlib) (junk : Nat → Char) (src : List Char)
    (windowBits : Int) :
    uncompress_status z junk src windowBits
      = if src.length = 0 then Z_DATA_ERROR
        else if z.inflateInit2 windowBits ≠ Z_OK then z.inflateInit2 windowBits
        else if (inflate_call z src windowBits).ret ≠ Z_STREAM_END then
          (inflate_call z src windowBits).ret
        else Z_OK :=
  har_uncompress_status z _ _ src windowBits

theorem har_bytes_uncompress_failure (z : zlib) (junk : Nat → Char) (src : List Char)
    (windowBits : Int) (h : uncompress_status z junk src windowBits ≠ Z_OK) :
    har_bytes_uncompress z junk src windowBits = src := by
  unfold uncompress_status at h
  unfold har_bytes_uncompress
  simp [h]

theorem har_bytes_uncompress_stream_end (z : zlib) (junk : Nat → Char) (src : List Char)
    (windowBits : Int) (h0 : src ≠ []) (h1 : z.inflateInit2 windowBits = Z_OK)
    (h2 : (inflate_call z src windowBits).ret = Z_STREAM_END) :
    har_bytes_uncompress z junk src windowBits = (inflate_call z src windowBits).out := by
  have hlen : src.length ≠ 0 := by simpa using h0
  unfold inflate_call at h2
  simp [har_bytes_uncompress, har_uncompress, hlen, h1, h2, inflate_call, Z_OK]

/-! ## Response content and body sizes -/

theorem content_write_back (resp : json_t) (cm : List (String × json_t)) (content2 : json_t)
    (hcontent : json_object_get (some resp) "content" = some (json_t.object cm)) :
    json_object_get (some (json_object_set_new resp "content" (some content2))) "content"
      = some content2 := by
  cases resp with
  | object rm => exact json_object_get_set_new_eq rm "content" content2
  | _ => simp [json_object_get] at hcontent

theorem data_in_step (n : Nat) (entry : json_t) (rm cm : List (String × json_t))
    (hresp : json_object_get (some entry) "response" = some (json_t.object rm))
    (hcontent : members_get "content" rm = some (json_t.object cm)) :
    ∃ rm2 cm2, json_object_get (some (har_debug_callback_data_in n entry)) "response"
        = some (json_t.object rm2)
      ∧ members_get "content" rm2 = some (json_t.object cm2)
      ∧ members_get "bodySize" rm2 = some (json_t.integer n)
      ∧ members_get "size" cm2 = some (json_t.integer n) := by
  cases entry with
  | object em =>
    have hc : json_object_get (some (json_t.object rm)) "content" = some (json_t.object cm) :=
      hcontent
    refine ⟨members_set "content" (json_t.object (members_set "size" (json_t.integer n) cm))
      (members_set "bodySize" (json_t.integer n) rm),
      members_set "size" (json_t.integer n) cm, ?_, ?_, ?_, ?_⟩
    · have ho1 : json_is_object (some (json_t.object rm)) = true := rfl
      have ho2 : json_is_object (some (json_t.object cm)) = true := rfl
      simp only [har_debug_callback_data_in, hresp, hc, ho1, ho2, Bool.not_true,
        Bool.false_eq_true, if_false]
      simp only [json_object_set_new, json_object_get, members_get_set_eq]
    · exact members_get_set_eq _ _ _
    · rw [members_get_set_ne _ _ _ (by decide)]
      exact members_get_set_eq _ _ _
    · exact members_get_set_eq _ _ _
  | _ => simp [json_object_get] at hresp

theorem receive_body_accumulates (chunks : List (List Char)) :
    ∀ (entry : json_t) (harbodyout : List Char) (rm cm : List (String × json_t)),
      json_object_get (some entry) "response" = some (json_t.object rm) →
      members_get "content" rm = some (json_t.object cm) →
      ∃ rm2 cm2,
        json_object_get (some (receive_body chunks (entry, harbodyout)).1) "response"
          = some (json_t.object rm2)
        ∧ members_get "content" rm2 = some (json_t.object cm2)
        ∧ (receive_body chunks (entry, harbodyout)).2 = harbodyout ++ chunks.flatten := by
  induction chunks with
  | nil =>
    intro entry harbodyout rm cm hresp hcontent
    exact ⟨rm, cm, hresp, hcontent, by simp [receive_body]⟩
  | cons c cs ih =>
    intro entry harbodyout rm cm hresp hcontent
    obtain ⟨rm1, cm1, h1, h2, _, _⟩ := data_in_step c.length entry rm cm hresp hcontent
    obtain ⟨rm2, cm2, h3, h4, h5⟩ :=
      ih (har_debug_callback_data_in c.length entry) (harbodyout ++ c) rm1 cm1 h1 h2
    refine ⟨rm2, cm2, ?_, h4, ?_⟩
    · simpa [receive_body, receive_chunk, har_write_callback] using h3
    · simpa [receive_body, receive_chunk, har_write_callback] using h5

/-! ## Header detection -/

theorem headers_to_lines_pair_line (pairs : List json_t)
    (h : ∀ p ∈ pairs, (pair_line p).isSome = true) :
    headers_to_lines pairs = some (pairs.filterMap pair_line)
      ∧ (pairs.filterMap pair_line).length = pairs.length := by
  induction pairs with
  | nil => exact ⟨rfl, rfl⟩
  | cons p ps ih =>
    obtain ⟨ih1, ih2⟩ := ih (fun q hq => h q (List.mem_cons_of_mem _ hq))
    have hp := h p (List.mem_cons_self _ _)
    obtain ⟨l, hl⟩ := Option.isSome_iff_exists.mp hp
    have hl2 := hl
    simp only [pair_line] at hl2
    split at hl2
    next n v hn hv =>
      simp only [Option.some.injEq] at hl2
      subst hl2
      constructor
      · simp only [headers_to_lines, hn, hv, ih1, List.filterMap_cons, hl]
      · simp only [List.filterMap_cons, hl, List.length_cons, ih2]
    next => cases hl2

theorem multipart_params_well_formed :
    ∀ param ∈ multipart_params, string_pairs (json_object_get (some param) "headers") := by
  intro param hparam
  have hcases : param = full_param ∨ param = json_t.integer 5
      ∨ param = json_t.object [("name", json_t.string "n".toList)]
      ∨ param = name_value ("k".toList, "v".toList) := by
    simpa [multipart_params] using hparam
  rcases hcases with e | e | e | e
  · subst e
    intro pj hpj
    have : pj = name_value ("X".toList, "y".toList) := by
      simpa [full_param, json_object_get, members_get, json_array_items] using hpj
    subst this
    exact ⟨rfl, rfl⟩
  · subst e
    intro pj hpj
    cases hpj
  · subst e
    intro pj hpj
    cases hpj
  · subst e
    intro pj hpj
    cases hpj

/-! # Part 4: the claims -/

/-! ## C1: text form of the request body -/

/-- C1 (code bug): on a `postData` with the string `text` "aGk=" and no `params`,
`har_request_postdata_to_byte_array` appends the four raw bytes of `text` when `encoding`
is "base64" (the decoder is not applied), and appends the base64 decoding of `text` when
`encoding` is another string such as "hex": the test on `g_ascii_strcasecmp` is inverted. -/
theorem text_body_encoding_test_inverted (g_base64_decode : List Char → List Char)
    (bytes : List Char) :
    har_request_postdata_to_byte_array g_base64_decode
        (some (postdata_request [("text", json_t.string "aGk=".toList),
          ("encoding", json_t.string "base64".toList)])) bytes
      = (0, bytes ++ "aGk=".toList)
    ∧ har_request_postdata_to_byte_array g_base64_decode
        (some (postdata_request [("text", json_t.string "aGk=".toList),
          ("encoding", json_t.string "hex".toList)])) bytes
      = (0, bytes ++ g_base64_decode "aGk=".toList) := by
  constructor <;> rfl

/-! ## C2: query/URL composer -/

/-- C2 (code bug): for a NUL-free base URL `u` and a non-empty list of query parameters
whose first escaped name and value are NUL-free, the URL given to `CURLOPT_URL` is `u`
followed by `&name=value` of the FIRST parameter only: each block is appended with its
zero padding (`s_len` bytes), so the C string ends after the first parameter. -/
theorem har_request_to_curl_url_first_parameter_only (esc : List Char → List Char)
    (u n v : List Char) (ps : List (List Char × List Char)) (easy : CURL)
    (hu : ∀ c ∈ u, c ≠ NUL) (hn : ∀ c ∈ esc n, c ≠ NUL) (hv : ∀ c ∈ esc v, c ≠ NUL) :
    har_request_to_curl_url esc (some (url_request u ((n, v) :: ps))) easy
      = some (easy ++ [curl_option.CURLOPT_URL
          (some (u ++ ("&".toList ++ esc n ++ "=".toList ++ esc v)))]) := by
  have hq := query_bytes_name_value esc ((n, v) :: ps)
  have hurl : json_string_value (json_object_get (some (url_request u ((n, v) :: ps))) "url")
      = some u := rfl
  have hqs : json_object_get (some (url_request u ((n, v) :: ps))) "queryString"
      = some (json_t.array (((n, v) :: ps).map name_value)) := rfl
  have hall : ∀ c ∈ u ++ ("&".toList ++ esc n ++ "=".toList ++ esc v), c ≠ NUL := by
    intro c hc
    simp only [List.mem_append] at hc
    rcases hc with hc | ((hc | hc) | hc) | hc
    · exact hu c hc
    · have : c = '&' := by simpa using hc
      subst this; decide
    · exact hn c hc
    · have : c = '=' := by simpa using hc
      subst this; decide
    · exact hv c hc
  simp only [har_request_to_curl_url, hurl, hqs, json_is_array, json_array_size,
    json_array_items, hq]
  simp only [List.flatMap_cons, List.map_cons, List.length_cons]
  have hcs := c_str_append_NUL (u ++ ("&".toList ++ esc n ++ "=".toList ++ esc v))
    ([NUL, NUL] ++ (ps.flatMap fun q =>
          ("&".toList ++ esc q.1 ++ "=".toList ++ esc q.2) ++ [NUL, NUL, NUL]) ++ [NUL]) hall
  simp only [List.append_assoc, List.cons_append, List.nil_append] at hcs ⊢
  simpa using hcs

/-- Witness for C2 at the failing input: with the two parameters `a=b` and `c=d` on
`http://x.test/?` the transport receives `http://x.test/?&a=b`. -/
theorem har_request_to_curl_url_first_parameter_only_witness :
    har_request_to_curl_url percent_escape
        (some (url_request "http://x.test/?".toList
          [("a".toList, "b".toList), ("c".toList, "d".toList)])) []
      = some [curl_option.CURLOPT_URL (some "http://x.test/?&a=b".toList)] :=
  har_request_to_curl_url_first_parameter_only percent_escape "http://x.test/?".toList
    "a".toList "b".toList [("c".toList, "d".toList)] [] (by decide) (by decide) (by decide)

/-! ## C3: header round trip -/

/-- C3, counterexample: 101 pairs `a: b` are serialised to 101 lines, but parsing the
CRLF-joined lines gives back 100 pairs only (the hundredth piece of `g_strsplit` holds
the last two lines), so the round trip does not reproduce the pairs. -/
theorem header_round_trip_fails_at_101 :
    har_headers_to_curl_slist (some (json_t.array (pairs_101.map name_value)))
      = some (pairs_101.map header_line)
    ∧ (pairs_101.map name_value).length = 101
    ∧ (har_headers_from_text [] (crlf_join (pairs_101.map header_line))).length = 100
    ∧ har_headers_from_text [] (crlf_join (pairs_101.map header_line))
        ≠ pairs_101.map name_value := by
  have h100 : (har_headers_from_text [] (crlf_join (pairs_101.map header_line))).length
      = 100 := by decide
  refine ⟨headers_to_lines_name_value pairs_101, by decide, h100, ?_⟩
  intro h
  rw [h] at h100
  revert h100
  decide

/-- C3, amended: for every sequence of at most 100 header pairs whose names contain no
colon, CR or LF and whose values contain no CR or LF (names and values being strings of a
JSON document, hence valid UTF-8), `har_headers_to_curl_slist` gives the lines
`name: value`, and `har_headers_from_text` on the CRLF-joined lines yields exactly the
same pairs in the same order. -/
theorem header_round_trip (pairs : List (List Char × List Char))
    (hlen : pairs.length ≤ 100)
    (hwf : ∀ p ∈ pairs, (':' ∉ p.1 ∧ '\r' ∉ p.1 ∧ '\n' ∉ p.1) ∧ ('\r' ∉ p.2 ∧ '\n' ∉ p.2))
    (hutf : ∀ p ∈ pairs, utf8_check_string p.1 = true ∧ utf8_check_string p.2 = true) :
    har_headers_to_curl_slist (some (json_t.array (pairs.map name_value)))
      = some (pairs.map header_line)
    ∧ har_headers_from_text [] (crlf_join (pairs.map header_line))
        = pairs.map name_value := by
  refine ⟨headers_to_lines_name_value pairs, ?_⟩
  have hcolon : ∀ p ∈ pairs, ':' ∉ p.1 := fun p hp => (hwf p hp).1.1
  cases hp : pairs with
  | nil => rfl
  | cons q qs =>
    rw [← hp]
    have hcr : ∀ l ∈ pairs.map header_line, '\r' ∉ l := by
      intro l hl
      obtain ⟨p, hp1, hp2⟩ := List.mem_map.mp hl
      subst hp2
      have h1 := (hwf p hp1).1.2.1
      have h2 := (hwf p hp1).2.1
      simp only [header_line, List.mem_append, not_or]
      exact ⟨⟨h1, by decide⟩, h2⟩
    have hne : pairs.map header_line ≠ [] := by simp [hp]
    have hlines := crlf_lines_join (pairs.map header_line) hne hcr
    have hparts : ∀ line ∈ crlf_lines (crlf_join (pairs.map header_line)), ':' ∈ line →
        utf8_check_string (line_name line) = true
          ∧ utf8_check_string (line_value line) = true := by
      rw [hlines]
      intro line hl _
      obtain ⟨p, hp1, hp2⟩ := List.mem_map.mp hl
      subst hp2
      obtain ⟨e1, e2⟩ := line_parts_of_pair p.1 p.2 (hcolon p hp1)
      rw [header_line, e1, e2]
      exact hutf p hp1
    rw [har_headers_from_text_lines [] _ (by rw [hlines]; simpa using hlen) hparts, hlines,
      filterMap_line_pair pairs hcolon]
    rfl

/-- Witness for C3, amended: two pairs, the second with a colon in its value. -/
theorem header_round_trip_witness :
    har_headers_to_curl_slist (some (json_t.array
        ([("Host".toList, "x.test".toList), ("X-A".toList, "b: c".toList)].map name_value)))
      = some ([("Host".toList, "x.test".toList), ("X-A".toList, "b: c".toList)].map header_line)
    ∧ har_headers_from_text [] (crlf_join
        ([("Host".toList, "x.test".toList), ("X-A".toList, "b: c".toList)].map header_line))
      = [("Host".toList, "x.test".toList), ("X-A".toList, "b: c".toList)].map name_value :=
  header_round_trip [("Host".toList, "x.test".toList), ("X-A".toList, "b: c".toList)]
    (by decide) (by decide) (by decide)

/-! ## C4: parsing raw header text -/

/-- C4, counterexamples.  (1) On a header text of 101 lines `a:b` the specification gives
101 pairs, `har_headers_from_text` appends 100.  (2) On the single line `X-Bad: ` followed
by the byte `FF` the specification gives the pair with that name and that value, while
`har_headers_from_text` appends an object with the name and no `value` member:
`json_string` returns NULL for bytes that are not valid UTF-8 and the result is passed to
`json_object_set_new` unchecked. -/
theorem har_headers_from_text_fails_at_101 :
    (((crlf_lines text_101).filterMap line_pair).length = 101
      ∧ (har_headers_from_text [] text_101).length = 100
      ∧ har_headers_from_text [] text_101 ≠ [] ++ (crlf_lines text_101).filterMap line_pair)
    ∧ ((crlf_lines text_bad_value).filterMap line_pair
        = [name_value ("X-Bad".toList, [Char.ofNat 255])]
      ∧ har_headers_from_text [] text_bad_value
        = [json_t.object [("name", json_t.string "X-Bad".toList)]]
      ∧ har_headers_from_text [] text_bad_value
        ≠ [] ++ (crlf_lines text_bad_value).filterMap line_pair) := by
  have h100 : (har_headers_from_text [] text_101).length = 100 := by decide
  have hspec : (crlf_lines text_bad_value).filterMap line_pair
      = [name_value ("X-Bad".toList, [Char.ofNat 255])] := by rfl
  have hcode : har_headers_from_text [] text_bad_value
      = [json_t.object [("name", json_t.string "X-Bad".toList)]] := by rfl
  refine ⟨⟨by decide, h100, ?_⟩, hspec, hcode, ?_⟩
  · intro h
    rw [h] at h100
    revert h100
    decide
  · rw [hspec, hcode]
    simp [name_value]

/-- C4, amended: for every raw header text of at most 100 CRLF-separated lines (at most
99 separators) in which the name and the value of every line that contains a colon are
valid UTF-8, the pairs appended to the header list are exactly one `{name, value}` pair
per line that contains a colon, in the order of the lines, the name being the text before
the first colon and the value the text after it less one leading space; lines without a
colon, the empty ones included, contribute nothing. -/
theorem har_headers_from_text_spec (headers : List json_t) (s : List Char)
    (h : (crlf_lines s).length ≤ 100)
    (hutf : ∀ line ∈ crlf_lines s, ':' ∈ line →
      utf8_check_string (line_name line) = true ∧ utf8_check_string (line_value line) = true) :
    har_headers_from_text headers s = headers ++ (crlf_lines s).filterMap line_pair :=
  har_headers_from_text_lines headers s h hutf

/-- Witness for C4, amended: a status line, two headers and the closing empty line. -/
theorem har_headers_from_text_spec_witness :
    (crlf_lines "HTTP/1.1 200 OK\r\nContent-Type: text/plain\r\nX:  y\r\n\r\n".toList).length
      ≤ 100
    ∧ har_headers_from_text []
        "HTTP/1.1 200 OK\r\nContent-Type: text/plain\r\nX:  y\r\n\r\n".toList
      = [] ++ (crlf_lines
          "HTTP/1.1 200 OK\r\nContent-Type: text/plain\r\nX:  y\r\n\r\n".toList).filterMap
          line_pair :=
  ⟨by decide, har_headers_from_text_spec [] _ (by decide) (by decide)⟩

/-! ## C5: `params` together with `text` -/

/-- C5: when the `postData` object of a request has a `params` member (in particular a
non-empty array) and a `text` member, `har_request_postdata_to_byte_array` returns
`HAR_ERROR_TEXT_AND_PARAMS`, which is 133, whatever the other members, the decoder and
the buffer are. -/
theorem text_and_params_conflict (g_base64_decode : List Char → List Char) (req : json_t)
    (members : List (String × json_t)) (params text : json_t) (bytes : List Char)
    (hpd : json_object_get (some req) "postData" = some (json_t.object members))
    (hparams : members_get "params" members = some params)
    (htext : members_get "text" members = some text) :
    (har_request_postdata_to_byte_array g_base64_decode (some req) bytes).1
        = HAR_ERROR_TEXT_AND_PARAMS
      ∧ HAR_ERROR_TEXT_AND_PARAMS = 133 :=
  ⟨byte_array_conflict g_base64_decode req members params text bytes hpd hparams htext, rfl⟩

/-- Witness for C5: a non-empty `params` array next to a `text`. -/
theorem text_and_params_conflict_witness :
    (har_request_postdata_to_byte_array (fun s => s)
        (some (postdata_request [("params", json_t.array [name_value ("a".toList, "b".toList)]),
          ("text", json_t.string "x".toList)])) []).1 = HAR_ERROR_TEXT_AND_PARAMS
      ∧ HAR_ERROR_TEXT_AND_PARAMS = 133 :=
  text_and_params_conflict (fun s => s) _
    [("params", json_t.array [name_value ("a".toList, "b".toList)]),
      ("text", json_t.string "x".toList)]
    (json_t.array [name_value ("a".toList, "b".toList)]) (json_t.string "x".toList) []
    rfl rfl rfl

/-! ## C6: result of the entry to request mapper -/

/-- C6, counterexample: on an entry with `request`, `response`, a string `method`, a string
`url`, no `postData` and a header object without `name`, the claim gives `HAR_OK`, but
`har_entry_to_curl_easy_setopt` returns nothing: `har_headers_to_curl_slist` calls
`strlen (NULL)`. -/
theorem setopt_no_result_on_nameless_header :
    mapper_status_spec (fun s => s) entry_with_nameless_header = HAR_OK
    ∧ har_entry_to_curl_easy_setopt percent_escape (fun s => s) (fun _ => 0)
        entry_with_nameless_header [] [] = none := by
  constructor <;> rfl

/-- C6, amended.  (1) For every entry on which one of the first four checks fails,
whatever its lists hold, `har_entry_to_curl_easy_setopt` returns, and its status is
`NoRequest` (129) if `request` is absent, otherwise `NoResponse` (130) if `response` is
absent, otherwise `NoMethod` (131) if `request.method` is not a string, otherwise `NoUrl`
(132) if `request.url` is not a string.  (2) For every entry whose request lists are well
formed (each element of `request.headers`, of `request.queryString` and of the `headers`
of a `postData.params` entry has a string `name` and a string `value`) it returns, and its
status is the first of these four that applies, otherwise `TextAndParamsConflict` (133)
if the body builder reports it, otherwise `HAR_OK` (0). -/
theorem har_entry_to_curl_easy_setopt_status (curl_easy_escape : List Char → List Char)
    (g_base64_decode : List Char → List Char) (curl_formadd : List curl_forms → Nat)
    (obj : json_t) (easy : CURL) (harbodyin : List Char) :
    (mapper_status_spec g_base64_decode obj ∈ [HAR_ERROR_NO_REQUEST, HAR_ERROR_NO_RESPONSE,
        HAR_ERROR_NO_METHOD, HAR_ERROR_NO_URL] →
      ∃ st, har_entry_to_curl_easy_setopt curl_easy_escape g_base64_decode curl_formadd
          obj easy harbodyin = some st
        ∧ st.status = mapper_status_spec g_base64_decode obj)
    ∧ (well_formed_lists (json_object_get (some obj) "request") →
      ∃ st, har_entry_to_curl_easy_setopt curl_easy_escape g_base64_decode curl_formadd
          obj easy harbodyin = some st
        ∧ st.status = mapper_status_spec g_base64_decode obj) := by
  constructor
  · intro hearly
    obtain ⟨st, hst⟩ := setopt_early curl_easy_escape g_base64_decode curl_formadd obj easy
      harbodyin hearly
    exact ⟨st, hst, setopt_status _ _ _ _ _ _ _ hst⟩
  · intro hwf
    obtain ⟨st, hst⟩ := setopt_total curl_easy_escape g_base64_decode curl_formadd obj easy
      harbodyin hwf
    exact ⟨st, hst, setopt_status _ _ _ _ _ _ _ hst⟩

/-- Witness for C6, amended: an entry without method whose header list is malformed gives
`NoMethod` (131), and a well-formed entry with `params` and `text` gives 133. -/
theorem har_entry_to_curl_easy_setopt_status_witness :
    (mapper_status_spec (fun s => s) entry_with_nameless_header_no_method = 131
      ∧ ∃ st, har_entry_to_curl_easy_setopt percent_escape (fun s => s) (fun _ => 0)
          entry_with_nameless_header_no_method [] [] = some st
        ∧ st.status = mapper_status_spec (fun s => s) entry_with_nameless_header_no_method)
    ∧ (well_formed_lists (json_object_get (some entry_with_params_and_text) "request")
      ∧ mapper_status_spec (fun s => s) entry_with_params_and_text = 133
      ∧ ∃ st, har_entry_to_curl_easy_setopt percent_escape (fun s => s) (fun _ => 0)
          entry_with_params_and_text [] [] = some st
        ∧ st.status = mapper_status_spec (fun s => s) entry_with_params_and_text) :=
  ⟨⟨by decide,
      (har_entry_to_curl_easy_setopt_status percent_escape (fun s => s) (fun _ => 0)
        entry_with_nameless_header_no_method [] []).1
        entry_with_nameless_header_no_method_early⟩,
    entry_with_params_and_text_well_formed, by decide,
    (har_entry_to_curl_easy_setopt_status percent_escape (fun s => s) (fun _ => 0)
      entry_with_params_and_text [] []).2 entry_with_params_and_text_well_formed⟩

/-! ## C7: structural errors abort the process -/

/-- C7, counterexamples: two entries with both `postData.params` and `postData.text`, on
which the body builder reports the conflict, that do not make `main` exit with 133.  The
first has no `method`: `main` exits with `NoMethod` (131), the earlier check.  The second
has a string `method` and `url`, and a parameter with a header without name: `main` has no
result, since the form builder runs before the status of the body builder is tested and
`har_headers_to_curl_slist` calls `strlen (NULL)`. -/
theorem conflict_entry_does_not_exit_133 :
    ((har_request_postdata_to_byte_array (fun s => s)
          (json_object_get (some entry_conflict_without_method) "request") []).1
        = HAR_ERROR_TEXT_AND_PARAMS
      ∧ main_before_perform percent_escape (fun s => s) (fun _ => 0) false
          (some entry_conflict_without_method) (some [])
        = some (main_setup.exit HAR_ERROR_NO_METHOD)
      ∧ HAR_ERROR_NO_METHOD = 131)
    ∧ ((har_request_postdata_to_byte_array (fun s => s)
          (json_object_get (some entry_conflict_with_nameless_field_header) "request") []).1
        = HAR_ERROR_TEXT_AND_PARAMS
      ∧ main_before_perform percent_escape (fun s => s) (fun _ => 0) false
          (some entry_conflict_with_nameless_field_header) (some []) = none) := by
  refine ⟨⟨by rfl, by rfl, by rfl⟩, by rfl, by rfl⟩

/-- C7, amended: (1) whenever `main` reaches `har_entry_to_curl_easy_setopt` on the
prepared entry and that call returns a status other than `HAR_OK`, `main` returns exactly
that status, which is at least 128 (between 129 and 133), without reaching
`curl_easy_perform`; (2) an entry without `request` makes `main` return `NoRequest` (129)
before the mapping; (3) in particular an entry whose request has a string `method`, a
string `url`, well-formed lists (each element of `request.headers`, of
`request.queryString` and of the `headers` of a `postData.params` entry has a string
`name` and a string `value`) and a `postData` with both `params` and `text` makes `main`
return 133 without reaching `curl_easy_perform`. -/
theorem main_aborts_on_structural_error (curl_easy_escape : List Char → List Char)
    (g_base64_decode : List Char → List Char) (curl_formadd : List curl_forms → Nat)
    (global_verbose : Bool) (entry : json_t) :
    (∀ (easy : CURL) (prepared : json_t) (st : setopt_result),
        main_prepare global_verbose (some entry) = .ok prepared →
        har_entry_to_curl_easy_setopt curl_easy_escape g_base64_decode curl_formadd
          prepared easy [] = some st →
        st.status ≠ HAR_OK →
        main_before_perform curl_easy_escape g_base64_decode curl_formadd global_verbose
            (some entry) (some easy) = some (main_setup.exit st.status)
          ∧ 128 ≤ st.status ∧ 129 ≤ st.status ∧ st.status ≤ 133)
    ∧ (json_object_get (some entry) "request" = none →
        ∀ curl_easy_init : Option CURL,
          main_before_perform curl_easy_escape g_base64_decode curl_formadd global_verbose
            (some entry) curl_easy_init = some (main_setup.exit HAR_ERROR_NO_REQUEST))
    ∧ (∀ (easy : CURL) (req : json_t) (members : List (String × json_t))
        (params text : json_t),
        json_object_get (some entry) "request" = some req →
        json_is_string (json_object_get (some req) "method") = true →
        json_is_string (json_object_get (some req) "url") = true →
        json_object_get (some req) "postData" = some (json_t.object members) →
        members_get "params" members = some params →
        members_get "text" members = some text →
        well_formed_lists (some req) →
        main_before_perform curl_easy_escape g_base64_decode curl_formadd global_verbose
            (some entry) (some easy) = some (main_setup.exit 133)) := by
  refine ⟨?_, ?_, ?_⟩
  · intro easy prepared st hprep hst hne
    have hval := mapper_status_spec_values g_base64_decode prepared
    rw [← setopt_status _ _ _ _ _ _ _ hst] at hval
    have hb : 129 ≤ st.status ∧ st.status ≤ 133 := by
      rcases hval with h0 | hb
      · exact absurd h0 hne
      · exact hb
    refine ⟨?_, by omega, hb.1, hb.2⟩
    simp only [main_before_perform, hprep, hst]
    simp [hne]
  · intro h init
    simp only [main_before_perform, main_prepare_no_request global_verbose entry h]
  · intro easy req members params text hreq hm hu hpd hparams htext hwf
    have hpo : json_is_object (json_object_get (some req) "postData") = true := by
      rw [hpd]; rfl
    obtain ⟨prepared, hprep, hpreq, hpresp⟩ := main_prepare_ok global_verbose entry req hreq hpo
    have hwf2 : well_formed_lists (json_object_get (some prepared) "request") := by
      rw [hpreq]; exact hwf
    obtain ⟨st, hst⟩ := setopt_total curl_easy_escape g_base64_decode curl_formadd prepared
      easy [] hwf2
    have hstat := setopt_status _ _ _ _ _ _ _ hst
    have hconf := byte_array_conflict g_base64_decode req members params text [] hpd hparams
      htext
    have h133 : st.status = 133 := by
      rw [hstat]
      obtain ⟨resp, hresp⟩ := Option.isSome_iff_exists.mp hpresp
      simp [mapper_status_spec, hpreq, hresp, hm, hu, hconf, HAR_ERROR_TEXT_AND_PARAMS]
    simp only [main_before_perform, hprep, hst]
    simp [h133, HAR_OK]

/-- Witness for C7, amended: the entry with `params` and `text`, a method, a URL and
well-formed lists exits with 133. -/
theorem main_aborts_on_structural_error_witness :
    main_before_perform percent_escape (fun s => s) (fun _ => 0) false
      (some entry_with_params_and_text) (some []) = some (main_setup.exit 133) :=
  (main_aborts_on_structural_error percent_escape (fun s => s) (fun _ => 0) false
      entry_with_params_and_text).2.2 []
    (json_t.object
        [("method", json_t.string "POST".toList), ("url", json_t.string "http://x.test/".toList),
          ("postData", json_t.object
            [("params", json_t.array [name_value ("a".toList, "b".toList)]),
              ("text", json_t.string "x".toList)])])
    [("params", json_t.array [name_value ("a".toList, "b".toList)]),
      ("text", json_t.string "x".toList)]
    (json_t.array [name_value ("a".toList, "b".toList)]) (json_t.string "x".toList)
    rfl rfl rfl rfl rfl rfl entry_with_params_and_text_well_formed

/-! ## C8: window modes -/

/-- C8: `har_window_bits` on a (NUL-free) token `s`: 31 (`MAX_WBITS | 16`) when `s` is
"gzip" ignoring ASCII case, 15 when it is "deflate", -15 when it is "deflate-w-o-zlib",
and 0 for every other token; it is -1 for the absent token.  On the absent token and on
every other token the step of `har_entry_from_curl_easy_getinfo` that follows hands the
body on as it is, whatever the zlib primitives would do: no decompression is attempted. -/
theorem har_window_bits_characterised (s : List Char) (hs : ∀ c ∈ s, c ≠ NUL) :
    (caseless_eq s "gzip".toList → har_window_bits (some s) = 31)
    ∧ (caseless_eq s "deflate".toList → har_window_bits (some s) = 15)
    ∧ (caseless_eq s "deflate-w-o-zlib".toList → har_window_bits (some s) = -15)
    ∧ (¬ caseless_eq s "gzip".toList → ¬ caseless_eq s "deflate".toList →
        ¬ caseless_eq s "deflate-w-o-zlib".toList → har_window_bits (some s) = 0)
    ∧ har_window_bits none = -1
    ∧ (∀ (z : zlib) (junk : Nat → Char) (resp : Option json_t) (part : json_t)
        (harbodyout : List Char),
        json_object_get resp "_contentEncoding" = some part →
        (json_string_value (some part) = none
          ∨ (json_string_value (some part) = some s ∧ ¬ caseless_eq s "gzip".toList
              ∧ ¬ caseless_eq s "deflate".toList
              ∧ ¬ caseless_eq s "deflate-w-o-zlib".toList)) →
        getinfo_body z junk resp harbodyout = harbodyout) := by
  have hg := strcasecmp_loop_eq_zero_iff s "gzip".toList hs (by decide)
  have hd := strcasecmp_loop_eq_zero_iff s "deflate".toList hs (by decide)
  have hw := strcasecmp_loop_eq_zero_iff s "deflate-w-o-zlib".toList hs (by decide)
  have hgd : ¬ caseless_eq "gzip".toList "deflate".toList := by decide
  have hgw : ¬ caseless_eq "gzip".toList "deflate-w-o-zlib".toList := by decide
  have hdw : ¬ caseless_eq "deflate".toList "deflate-w-o-zlib".toList := by decide
  have h31 : ((MAX_WBITS ||| 16 : Nat) : Int) = 31 := by decide
  have h15 : (MAX_WBITS : Int) = 15 := by decide
  have hother : ¬ caseless_eq s "gzip".toList → ¬ caseless_eq s "deflate".toList →
      ¬ caseless_eq s "deflate-w-o-zlib".toList → har_window_bits (some s) = 0 := by
    intro h1 h2 h3
    have e1 : strcasecmp_loop s "gzip".toList ≠ 0 := fun e => h1 (hg.mp e)
    have e2 : strcasecmp_loop s "deflate".toList ≠ 0 := fun e => h2 (hd.mp e)
    have e3 : strcasecmp_loop s "deflate-w-o-zlib".toList ≠ 0 := fun e => h3 (hw.mp e)
    simp only [har_window_bits, g_ascii_strcasecmp, if_neg e1, if_neg e2, if_neg e3]
  refine ⟨?_, ?_, ?_, hother, rfl, ?_⟩
  · intro h
    simp only [har_window_bits, g_ascii_strcasecmp, if_pos (hg.mpr h), h31]
  · intro h
    have e1 : strcasecmp_loop s "gzip".toList ≠ 0 :=
      fun e => hgd ((hg.mp e).symm.trans h)
    simp only [har_window_bits, g_ascii_strcasecmp, if_neg e1, if_pos (hd.mpr h), h15]
  · intro h
    have e1 : strcasecmp_loop s "gzip".toList ≠ 0 :=
      fun e => hgw ((hg.mp e).symm.trans h)
    have e2 : strcasecmp_loop s "deflate".toList ≠ 0 :=
      fun e => hdw ((hd.mp e).symm.trans h)
    simp only [har_window_bits, g_ascii_strcasecmp, if_neg e1, if_neg e2, if_pos (hw.mpr h),
      h15]
  · intro z junk resp part harbodyout hpart htok
    rcases htok with hn | ⟨hsome, h1, h2, h3⟩
    · simp [getinfo_body, hpart, hn, har_window_bits]
    · simp [getinfo_body, hpart, hsome, hother h1 h2 h3]

/-- Witness for C8: the token "GZip". -/
theorem har_window_bits_characterised_witness :
    (caseless_eq "GZip".toList "gzip".toList → har_window_bits (some "GZip".toList) = 31)
    ∧ har_window_bits (some "GZip".toList) = 31
    ∧ har_window_bits (some "sdch".toList) = 0 :=
  ⟨(har_window_bits_characterised "GZip".toList (by decide)).1,
    (har_window_bits_characterised "GZip".toList (by decide)).1 (by decide),
    (har_window_bits_characterised "sdch".toList (by decide)).2.2.2.1
      (by decide) (by decide) (by decide)⟩

/-! ## C9: success of the decompressor -/

/-- C9, counterexample: `har_uncompress` returns `Z_OK` and `har_bytes_uncompress` returns
a new buffer although `inflate` left input unconsumed (first primitive), and although
`inflate` did not report `Z_STREAM_END` at all but `Z_OK` with the destination full
(second primitive). -/
theorem har_uncompress_success_not_only_at_full_stream_end :
    (uncompress_status zlib_trailing_input (fun _ => NUL) "abc".toList 31 = Z_OK
      ∧ (inflate_call zlib_trailing_input "abc".toList 31).rest = "c".toList
      ∧ har_bytes_uncompress zlib_trailing_input (fun _ => NUL) "abc".toList 31 = "hi".toList)
    ∧ (uncompress_status zlib_output_full (fun _ => NUL) "abc".toList 31 = Z_OK
      ∧ (inflate_call zlib_output_full "abc".toList 31).ret ≠ Z_STREAM_END
      ∧ har_bytes_uncompress zlib_output_full (fun _ => NUL) "abc".toList 31
          = List.replicate 30 'a') := by
  refine ⟨⟨?_, ?_, ?_⟩, ?_, ?_, ?_⟩
  · rfl
  · rfl
  · rfl
  · rfl
  · decide
  · rfl

/-- C9, amended: whenever the status of `inflate` is not `Z_OK` (it is `Z_STREAM_END` or
an error code), `har_uncompress` returns `Z_OK` exactly when the source is not empty,
`inflateInit2` succeeded and `inflate` reported `Z_STREAM_END`, whether or not it consumed
the whole input; and then `har_bytes_uncompress` returns exactly the `total_out` bytes
that `inflate` produced. -/
theorem har_uncompress_success_iff_stream_end (z : zlib) (junk : Nat → Char)
    (src : List Char) (windowBits : Int)
    (hret : (inflate_call z src windowBits).ret ≠ Z_OK) :
    (uncompress_status z junk src windowBits = Z_OK
      ↔ src ≠ [] ∧ z.inflateInit2 windowBits = Z_OK
        ∧ (inflate_call z src windowBits).ret = Z_STREAM_END)
    ∧ (uncompress_status z junk src windowBits = Z_OK →
        har_bytes_uncompress z junk src windowBits = (inflate_call z src windowBits).out
        ∧ (har_bytes_uncompress z junk src windowBits).length
            = (inflate_call z src windowBits).out.length) := by
  have hiff : uncompress_status z junk src windowBits = Z_OK
      ↔ src ≠ [] ∧ z.inflateInit2 windowBits = Z_OK
        ∧ (inflate_call z src windowBits).ret = Z_STREAM_END := by
    rw [uncompress_status_eq]
    by_cases h0 : src = []
    · subst h0
      simp [Z_DATA_ERROR, Z_OK]
    · have hlen : src.length ≠ 0 := by simpa using h0
      by_cases h1 : z.inflateInit2 windowBits = Z_OK
      · by_cases h2 : (inflate_call z src windowBits).ret = Z_STREAM_END
        · simp [hlen, h0, h1, h2]
        · simp [hlen, h0, h1, h2, hret]
      · simp [hlen, h0, h1]
  refine ⟨hiff, fun h => ?_⟩
  obtain ⟨h0, h1, h2⟩ := hiff.mp h
  have := har_bytes_uncompress_stream_end z junk src windowBits h0 h1 h2
  exact ⟨this, by rw [this]⟩

/-- Witness for C9, amended: the stream that ends with input left over. -/
theorem har_uncompress_success_iff_stream_end_witness :
    (inflate_call zlib_trailing_input "abc".toList 31).ret ≠ Z_OK
    ∧ (uncompress_status zlib_trailing_input (fun _ => NUL) "abc".toList 31 = Z_OK →
        har_bytes_uncompress zlib_trailing_input (fun _ => NUL) "abc".toList 31
          = (inflate_call zlib_trailing_input "abc".toList 31).out
        ∧ (har_bytes_uncompress zlib_trailing_input (fun _ => NUL) "abc".toList 31).length
            = (inflate_call zlib_trailing_input "abc".toList 31).out.length) :=
  ⟨by decide,
    (har_uncompress_success_iff_stream_end zlib_trailing_input (fun _ => NUL) "abc".toList 31
      (by decide)).2⟩

/-! ## C10: a failed decompression keeps the body -/

/-- C10: whenever `har_uncompress` reports an error to `har_bytes_uncompress` (a status
other than `Z_OK`), `har_bytes_uncompress` and `har_byte_array_uncompress` return exactly
the source bytes.  This is the case for the empty source, which gives `Z_DATA_ERROR`
whatever the primitives are (`inflate` is not consulted), for a failed `inflateInit2`,
whose code is returned, and for every `inflate` status other than `Z_STREAM_END`, which
is returned. -/
theorem decompression_failure_keeps_source (z : zlib) (junk : Nat → Char) (src : List Char)
    (windowBits : Int) :
    (uncompress_status z junk src windowBits ≠ Z_OK →
      har_bytes_uncompress z junk src windowBits = src
      ∧ har_byte_array_uncompress z junk src windowBits = src)
    ∧ (src = [] → uncompress_status z junk src windowBits = Z_DATA_ERROR
        ∧ Z_DATA_ERROR ≠ Z_OK)
    ∧ (src ≠ [] → z.inflateInit2 windowBits ≠ Z_OK →
        uncompress_status z junk src windowBits = z.inflateInit2 windowBits)
    ∧ (src ≠ [] → z.inflateInit2 windowBits = Z_OK →
        (inflate_call z src windowBits).ret ≠ Z_STREAM_END →
        uncompress_status z junk src windowBits = (inflate_call z src windowBits).ret) := by
  refine ⟨fun h => ?_, fun h => ?_, fun h0 h1 => ?_, fun h0 h1 h2 => ?_⟩
  · have := har_bytes_uncompress_failure z junk src windowBits h
    exact ⟨this, this⟩
  · subst h
    exact ⟨by rw [uncompress_status_eq]; simp, by decide⟩
  · have hlen : src.length ≠ 0 := by simpa using h0
    rw [uncompress_status_eq]
    simp [hlen, h1]
  · have hlen : src.length ≠ 0 := by simpa using h0
    rw [uncompress_status_eq]
    simp [hlen, h1, h2]

/-- Witness for C10: a corrupt three-byte body is handed back as it was. -/
theorem decompression_failure_keeps_source_witness :
    uncompress_status zlib_data_error (fun _ => NUL) "abc".toList 31 ≠ Z_OK
    ∧ har_bytes_uncompress zlib_data_error (fun _ => NUL) "abc".toList 31 = "abc".toList
    ∧ har_byte_array_uncompress zlib_data_error (fun _ => NUL) "abc".toList 31
        = "abc".toList :=
  ⟨by decide,
    (decompression_failure_keeps_source zlib_data_error (fun _ => NUL) "abc".toList 31).1
      (by decide)⟩

/-! ## C11: text of the response body -/

/-- C11 (code bug): `har_response_content_from_byte_array` on a response whose `content`
is an object with the members `cm` (none for a freshly prepared response).  (1) For the
empty buffer, which is valid, `content.text` is not written at all (`bytes->data` is NULL
and `json_string (NULL)` is NULL), so a fresh `content` has no `text`.  (2) For a
non-empty valid buffer `content.text` is the C string read at `bytes->data`, the buffer
followed by whatever the memory holds after it up to the first NUL, when `json_string`
finds that C string valid UTF-8, and `encoding` is not written; (3) when `json_string`
finds it not valid, `content.text` is not written either.  (4) The text is the buffer
itself when the buffer is NUL-free, valid for `json_string` and a NUL follows it at once.
(5) For a buffer that is not valid, `content.text` is its base64 encoding (a text that
`json_string` accepts) and `content.encoding` is "base64". -/
theorem response_text_read_as_c_string (g_utf8_validate : List Char → Bool)
    (g_base64_encode : List Char → List Char) (beyond : List Char) (resp : json_t)
    (cm : List (String × json_t)) (bytes : List Char)
    (hcontent : json_object_get (some resp) "content" = some (json_t.object cm)) :
    (g_utf8_validate bytes = true → bytes = [] →
      json_object_get (json_object_get (some (har_response_content_from_byte_array
          g_utf8_validate g_base64_encode beyond resp bytes)) "content") "text"
        = members_get "text" cm
      ∧ json_object_get (json_object_get (some (har_response_content_from_byte_array
          g_utf8_validate g_base64_encode beyond resp bytes)) "content") "encoding"
        = members_get "encoding" cm)
    ∧ (g_utf8_validate bytes = true → bytes ≠ [] →
      utf8_check_string (c_str (bytes ++ beyond ++ [NUL])) = true →
      json_object_get (json_object_get (some (har_response_content_from_byte_array
          g_utf8_validate g_base64_encode beyond resp bytes)) "content") "text"
        = some (json_t.string (c_str (bytes ++ beyond ++ [NUL])))
      ∧ json_object_get (json_object_get (some (har_response_content_from_byte_array
          g_utf8_validate g_base64_encode beyond resp bytes)) "content") "encoding"
        = members_get "encoding" cm)
    ∧ (g_utf8_validate bytes = true → bytes ≠ [] →
      utf8_check_string (c_str (bytes ++ beyond ++ [NUL])) = false →
      json_object_get (json_object_get (some (har_response_content_from_byte_array
          g_utf8_validate g_base64_encode beyond resp bytes)) "content") "text"
        = members_get "text" cm
      ∧ json_object_get (json_object_get (some (har_response_content_from_byte_array
          g_utf8_validate g_base64_encode beyond resp bytes)) "content") "encoding"
        = members_get "encoding" cm)
    ∧ (g_utf8_validate bytes = true → bytes ≠ [] → (∀ c ∈ bytes, c ≠ NUL) → beyond = [] →
      utf8_check_string bytes = true →
      json_object_get (json_object_get (some (har_response_content_from_byte_array
          g_utf8_validate g_base64_encode beyond resp bytes)) "content") "text"
        = some (json_t.string bytes))
    ∧ (g_utf8_validate bytes = false → utf8_check_string (g_base64_encode bytes) = true →
      json_object_get (json_object_get (some (har_response_content_from_byte_array
          g_utf8_validate g_base64_encode beyond resp bytes)) "content") "text"
        = some (json_t.string (g_base64_encode bytes))
      ∧ json_object_get (json_object_get (some (har_response_content_from_byte_array
          g_utf8_validate g_base64_encode beyond resp bytes)) "content") "encoding"
        = some (json_t.string "base64".toList)) := by
  have hvalid : g_utf8_validate bytes = true → bytes ≠ [] →
      utf8_check_string (c_str (bytes ++ beyond ++ [NUL])) = true →
      json_object_get (json_object_get (some (har_response_content_from_byte_array
          g_utf8_validate g_base64_encode beyond resp bytes)) "content") "text"
        = some (json_t.string (c_str (bytes ++ beyond ++ [NUL])))
      ∧ json_object_get (json_object_get (some (har_response_content_from_byte_array
          g_utf8_validate g_base64_encode beyond resp bytes)) "content") "encoding"
        = members_get "encoding" cm := by
    intro hv hne hutf
    simp only [har_response_content_from_byte_array, hcontent, hv, if_true, byte_array_data,
      if_neg hne, json_string_valid _ hutf]
    rw [content_write_back resp cm _ hcontent]
    constructor
    · exact json_object_get_set_new_eq cm "text" _
    · rw [json_object_get_set_new_ne _ _ _ _ (by decide)]
      rfl
  refine ⟨?_, hvalid, ?_, ?_, ?_⟩
  · intro hv he
    subst he
    simp only [har_response_content_from_byte_array, hcontent, hv, if_true, byte_array_data,
      json_string]
    rw [content_write_back resp cm _ hcontent]
    exact ⟨rfl, rfl⟩
  · intro hv hne hutf
    simp only [har_response_content_from_byte_array, hcontent, hv, if_true, byte_array_data,
      if_neg hne, json_string, hutf, Bool.false_eq_true, if_false]
    rw [content_write_back resp cm _ hcontent]
    exact ⟨rfl, rfl⟩
  · intro hv hne hnul hb hutf
    subst hb
    have hc : c_str (bytes ++ [] ++ [NUL]) = bytes := by
      simpa using c_str_append_NUL bytes [] hnul
    rw [(hvalid hv hne (by rw [hc]; exact hutf)).1, hc]
  · intro hv hutf
    have h64 : json_string (some "base64".toList) = some (json_t.string "base64".toList) :=
      json_string_valid _ (by decide)
    simp only [har_response_content_from_byte_array, hcontent, hv, Bool.false_eq_true,
      if_false, json_string_valid _ hutf, h64]
    rw [content_write_back resp cm _ hcontent]
    constructor
    · rw [json_object_get_set_new_ne _ _ _ _ (by decide)]
      exact json_object_get_set_new_eq cm "text" _
    · simp only [json_object_set_new]
      exact json_object_get_set_new_eq _ "encoding" _

/-- Witness for C11 at the failing inputs: on a prepared response the empty body leaves
`content` without `text`, the body `hi` followed in memory by `X` gives the text `hiX`,
and the body `hi` followed in memory by the byte `FF` leaves `content` without `text`. -/
theorem response_text_read_as_c_string_witness :
    json_object_get (json_object_get (some (har_response_content_from_byte_array
        ascii_validate (fun _ => []) [] prepared_response [])) "content") "text" = none
    ∧ json_object_get (json_object_get (some (har_response_content_from_byte_array
        ascii_validate (fun _ => []) "X".toList prepared_response "hi".toList)) "content")
        "text" = some (json_t.string "hiX".toList)
    ∧ json_object_get (json_object_get (some (har_response_content_from_byte_array
        ascii_validate (fun _ => []) [Char.ofNat 255] prepared_response "hi".toList))
        "content") "text" = none :=
  ⟨((response_text_read_as_c_string ascii_validate (fun _ => []) [] prepared_response []
      [] rfl).1 rfl rfl).1,
    ((response_text_read_as_c_string ascii_validate (fun _ => []) "X".toList
      prepared_response [] "hi".toList rfl).2.1 rfl (by decide) (by decide)).1,
    ((response_text_read_as_c_string ascii_validate (fun _ => []) [Char.ofNat 255]
      prepared_response [] "hi".toList rfl).2.2.1 rfl (by decide) (by decide)).1⟩

/-! ## C12: sizes of the response body -/

/-- C12 (code bug): for an entry whose response has a `content` object, after the chunks
`chunks` followed by the chunk `last` were delivered, `response.bodySize` and
`response.content.size` both are the size of `last`, the last chunk alone, while the
incoming-body accumulator holds all the chunks, whose number of bytes is the sum of the
chunk sizes: the `CURLINFO_DATA_IN` case stores the size of each chunk over the previous
one. -/
theorem body_sizes_are_the_last_chunk (entry : json_t) (rm cm : List (String × json_t))
    (chunks : List (List Char)) (last harbodyout : List Char)
    (hresp : json_object_get (some entry) "response" = some (json_t.object rm))
    (hcontent : members_get "content" rm = some (json_t.object cm)) :
    json_object_get
        (json_object_get (some (receive_body (chunks ++ [last]) (entry, harbodyout)).1)
          "response") "bodySize" = some (json_t.integer last.length)
    ∧ json_object_get
        (json_object_get
          (json_object_get (some (receive_body (chunks ++ [last]) (entry, harbodyout)).1)
            "response") "content") "size" = some (json_t.integer last.length)
    ∧ (receive_body (chunks ++ [last]) (entry, harbodyout)).2
        = harbodyout ++ chunks.flatten ++ last
    ∧ (receive_body (chunks ++ [last]) (entry, harbodyout)).2.length
        = harbodyout.length + (chunks.map List.length).sum + last.length := by
  obtain ⟨rm1, cm1, h1, h2, h3⟩ := receive_body_accumulates chunks entry harbodyout rm cm
    hresp hcontent
  obtain ⟨rm2, cm2, h4, h5, h6, h7⟩ :=
    data_in_step last.length (receive_body chunks (entry, harbodyout)).1 rm1 cm1 h1 h2
  have hstep : receive_body (chunks ++ [last]) (entry, harbodyout)
      = (har_debug_callback_data_in last.length (receive_body chunks (entry, harbodyout)).1,
          (receive_body chunks (entry, harbodyout)).2 ++ last) := by
    simp [receive_body, receive_chunk, har_write_callback, List.foldl_append]
  have hcm : json_object_get (some (json_t.object rm2)) "content"
      = some (json_t.object cm2) := h5
  rw [hstep]
  refine ⟨?_, ?_, ?_, ?_⟩
  · simp only [h4]
    exact h6
  · simp only [h4, hcm]
    exact h7
  · simp only [h3]
  · simp only [h3, List.length_append, List.length_flatten]

/-- Witness for C12 at the failing input: the chunks `ab` and `cde` on a prepared entry
leave both sizes at 3 with 5 bytes in the accumulator. -/
theorem body_sizes_are_the_last_chunk_witness :
    json_object_get
        (json_object_get
          (some (receive_body (["ab".toList] ++ ["cde".toList]) (prepared_entry, [])).1)
          "response") "bodySize" = some (json_t.integer 3)
    ∧ json_object_get
        (json_object_get
          (json_object_get
            (some (receive_body (["ab".toList] ++ ["cde".toList]) (prepared_entry, [])).1)
            "response") "content") "size" = some (json_t.integer 3)
    ∧ (receive_body (["ab".toList] ++ ["cde".toList]) (prepared_entry, [])).2
        = "abcde".toList
    ∧ (receive_body (["ab".toList] ++ ["cde".toList]) (prepared_entry, [])).2.length = 5 :=
  body_sizes_are_the_last_chunk prepared_entry
    [("headersSize", json_t.integer 0), ("bodySize", json_t.integer 0),
      ("headers", json_t.array []), ("content", json_t.object [])] []
    ["ab".toList] "cde".toList [] rfl rfl

/-! ## C13: method mapping -/

/-- C13, counterexample: the 17-character method `updateredirectref` is none of the four
direct methods, and the custom request name given to the transport is
`UPDATEREDIRECTRE`, 16 characters, not the method uppercased. -/
theorem custom_method_cut_at_16 :
    har_method_to_curl_method "updateredirectref".toList []
      = [curl_option.CURLOPT_CUSTOMREQUEST "UPDATEREDIRECTRE".toList]
    ∧ "updateredirectref".toList.map g_ascii_toupper = "UPDATEREDIRECTREF".toList
    ∧ har_method_to_curl_method "updateredirectref".toList []
      ≠ [curl_option.CURLOPT_CUSTOMREQUEST ("updateredirectref".toList.map g_ascii_toupper)] := by
  refine ⟨by rfl, by rfl, ?_⟩
  intro h
  have h2 : har_method_to_curl_method "updateredirectref".toList []
      = [curl_option.CURLOPT_CUSTOMREQUEST "UPDATEREDIRECTRE".toList] := by rfl
  rw [h2] at h
  simp only [List.cons.injEq, curl_option.CURLOPT_CUSTOMREQUEST.injEq, and_true] at h
  revert h
  decide

/-- C13, amended: for every (NUL-free) method string `m` and handle, if `m` is GET, POST,
PUT or HEAD ignoring ASCII case, `har_method_to_curl_method` sets the switch `HTTPGET`,
`POST`, `PUT` or `NOBODY` and nothing else (no custom request name); for every other `m`
it sets as custom request name the first 16 characters of `m` with their ASCII letters
uppercased, which is `m` uppercased when `m` has at most 16 characters. -/
theorem har_method_to_curl_method_spec (m : List Char) (easy : CURL)
    (hm : ∀ c ∈ m, c ≠ NUL) :
    (caseless_eq m "GET".toList →
      har_method_to_curl_method m easy = easy ++ [curl_option.CURLOPT_HTTPGET])
    ∧ (caseless_eq m "POST".toList →
      har_method_to_curl_method m easy = easy ++ [curl_option.CURLOPT_POST])
    ∧ (caseless_eq m "PUT".toList →
      har_method_to_curl_method m easy = easy ++ [curl_option.CURLOPT_PUT])
    ∧ (caseless_eq m "HEAD".toList →
      har_method_to_curl_method m easy = easy ++ [curl_option.CURLOPT_NOBODY])
    ∧ (¬ caseless_eq m "GET".toList → ¬ caseless_eq m "POST".toList →
        ¬ caseless_eq m "PUT".toList → ¬ caseless_eq m "HEAD".toList →
        har_method_to_curl_method m easy
            = easy ++ [curl_option.CURLOPT_CUSTOMREQUEST ((m.take 16).map g_ascii_toupper)]
          ∧ (m.length ≤ 16 →
            har_method_to_curl_method m easy
              = easy ++ [curl_option.CURLOPT_CUSTOMREQUEST (m.map g_ascii_toupper)])) := by
  have hg := strcasecmp_loop_eq_zero_iff m "GET".toList hm (by decide)
  have hp := strcasecmp_loop_eq_zero_iff m "POST".toList hm (by decide)
  have hu := strcasecmp_loop_eq_zero_iff m "PUT".toList hm (by decide)
  have hh := strcasecmp_loop_eq_zero_iff m "HEAD".toList hm (by decide)
  have hgp : ¬ caseless_eq "GET".toList "POST".toList := by decide
  have hgu : ¬ caseless_eq "GET".toList "PUT".toList := by decide
  have hgh : ¬ caseless_eq "GET".toList "HEAD".toList := by decide
  have hpu : ¬ caseless_eq "POST".toList "PUT".toList := by decide
  have hph : ¬ caseless_eq "POST".toList "HEAD".toList := by decide
  have huh : ¬ caseless_eq "PUT".toList "HEAD".toList := by decide
  refine ⟨?_, ?_, ?_, ?_, ?_⟩
  · intro h
    simp only [har_method_to_curl_method, g_ascii_strcasecmp, if_pos (hg.mpr h)]
  · intro h
    have e1 : strcasecmp_loop m "GET".toList ≠ 0 := fun e => hgp ((hg.mp e).symm.trans h)
    simp only [har_method_to_curl_method, g_ascii_strcasecmp, if_neg e1, if_pos (hp.mpr h)]
  · intro h
    have e1 : strcasecmp_loop m "GET".toList ≠ 0 := fun e => hgu ((hg.mp e).symm.trans h)
    have e2 : strcasecmp_loop m "POST".toList ≠ 0 := fun e => hpu ((hp.mp e).symm.trans h)
    simp only [har_method_to_curl_method, g_ascii_strcasecmp, if_neg e1, if_neg e2,
      if_pos (hu.mpr h)]
  · intro h
    have e1 : strcasecmp_loop m "GET".toList ≠ 0 := fun e => hgh ((hg.mp e).symm.trans h)
    have e2 : strcasecmp_loop m "POST".toList ≠ 0 := fun e => hph ((hp.mp e).symm.trans h)
    have e3 : strcasecmp_loop m "PUT".toList ≠ 0 := fun e => huh ((hu.mp e).symm.trans h)
    simp only [har_method_to_curl_method, g_ascii_strcasecmp, if_neg e1, if_neg e2, if_neg e3,
      if_pos (hh.mpr h)]
  · intro h1 h2 h3 h4
    have e1 : strcasecmp_loop m "GET".toList ≠ 0 := fun e => h1 (hg.mp e)
    have e2 : strcasecmp_loop m "POST".toList ≠ 0 := fun e => h2 (hp.mp e)
    have e3 : strcasecmp_loop m "PUT".toList ≠ 0 := fun e => h3 (hu.mp e)
    have e4 : strcasecmp_loop m "HEAD".toList ≠ 0 := fun e => h4 (hh.mp e)
    have hcut : har_method_to_curl_method m easy
        = easy ++ [curl_option.CURLOPT_CUSTOMREQUEST ((m.take 16).map g_ascii_toupper)] := by
      simp only [har_method_to_curl_method, g_ascii_strcasecmp, if_neg e1, if_neg e2,
        if_neg e3, if_neg e4]
      by_cases hl : m.length ≤ 16
      · rw [Nat.min_eq_left hl, List.take_of_length_le hl, List.take_of_length_le (le_refl _)]
      · rw [Nat.min_eq_right (by omega)]
    refine ⟨hcut, fun hl => ?_⟩
    rw [hcut, List.take_of_length_le hl]

/-- Witness for C13, amended: `patch` and `Head`. -/
theorem har_method_to_curl_method_spec_witness :
    har_method_to_curl_method "Head".toList [] = [curl_option.CURLOPT_NOBODY]
    ∧ har_method_to_curl_method "patch".toList []
        = [curl_option.CURLOPT_CUSTOMREQUEST "PATCH".toList] :=
  ⟨(har_method_to_curl_method_spec "Head".toList [] (by decide)).2.2.2.1 (by decide),
    ((har_method_to_curl_method_spec "patch".toList [] (by decide)).2.2.2.2
      (by decide) (by decide) (by decide) (by decide)).2 (by decide)⟩

/-! ## C14: detection of `content-encoding` and `content-type` -/

/-- C15, counterexample: for a pair with a name and no value the specification gives the
failure `MalformedHeader`; `har_headers_to_curl_slist` gives no result at all (it calls
`strlen (NULL)`), in particular it does not report `MalformedHeader`. -/
theorem no_malformed_header_failure :
    pairsToTransportHeaders pairs_without_value = transport_headers.MalformedHeader
    ∧ har_headers_to_curl_slist (some (json_t.array pairs_without_value)) = none
    ∧ (har_headers_to_curl_slist (some (json_t.array pairs_without_value))).map
        transport_headers.lines
      ≠ some (pairsToTransportHeaders pairs_without_value) := by
  refine ⟨by rfl, by rfl, ?_⟩
  have h : har_headers_to_curl_slist (some (json_t.array pairs_without_value)) = none := by
    rfl
  rw [h]
  simp

/-- C15, amended: for every list of header pairs in which every pair has both a string
name and a string value, `har_headers_to_curl_slist` returns the list of the lines
`name: value`, one per pair, in input order, which is what the specification asks for. -/
theorem har_headers_to_curl_slist_lines (pairs : List json_t)
    (h : ∀ p ∈ pairs, (pair_line p).isSome = true) :
    har_headers_to_curl_slist (some (json_t.array pairs)) = some (pairs.filterMap pair_line)
    ∧ (pairs.filterMap pair_line).length = pairs.length
    ∧ (har_headers_to_curl_slist (some (json_t.array pairs))).map transport_headers.lines
        = some (pairsToTransportHeaders pairs) := by
  obtain ⟨h1, h2⟩ := headers_to_lines_pair_line pairs h
  have hall : pairs.all (fun p => (pair_line p).isSome) = true := by
    simpa using h
  refine ⟨h1, h2, ?_⟩
  simp only [har_headers_to_curl_slist, json_array_items, h1, Option.map_some',
    pairsToTransportHeaders, hall, if_true]

/-- Witness for C15, amended: two pairs. -/
theorem har_headers_to_curl_slist_lines_witness :
    har_headers_to_curl_slist (some (json_t.array
        [name_value ("Host".toList, "x.test".toList), name_value ("A".toList, "b".toList)]))
      = some ["Host: x.test".toList, "A: b".toList] :=
  (har_headers_to_curl_slist_lines
    [name_value ("Host".toList, "x.test".toList), name_value ("A".toList, "b".toList)]
    (by decide)).1

/-! ## C16: options of a multipart field -/

/-- C16, counterexample: for an object entry with a name and a `headers` array that holds
a pair without name, no option list is passed to the form builder and the remaining
entries are not processed: `har_headers_to_curl_slist` calls `strlen (NULL)` while the
options are being written. -/
theorem no_field_options_on_nameless_header :
    json_is_object (some (json_t.object [("name", json_t.string "a".toList),
      ("headers", json_t.array [json_t.object []])])) = true
    ∧ param_option_writes (json_t.object [("name", json_t.string "a".toList),
      ("headers", json_t.array [json_t.object []])]) = none
    ∧ har_request_postdata_to_curl_httppost (fun _ => 0)
        (some request_with_nameless_field_header) = none := by
  refine ⟨by rfl, by rfl, by rfl⟩

/-- C16, amended: for every request whose `postData` is an object with an array `params`
in which the `headers` member of every entry, when it is an array, holds only pairs with
a string name and a string value.  (1) For every object entry the writes into `options`
are the options for those of `name`, `value`, `file`, `fileName`, `contentType` that are
strings and for `headers` when it is an array, in that order, followed by one
`CURLFORM_END`; they are written at the indices 0, 1, 2, ... in turn, at most 7 of them,
every index below 8; and the option list that `curl_formadd` reads from `options` is
exactly that list.  (2) `har_request_postdata_to_curl_httppost` returns, and the form it
returns holds, in the order of `params`, the option list of every object entry for which
`curl_formadd` succeeded: entries that are not objects are skipped, and an entry for which
`curl_formadd` fails adds nothing and does not stop the entries after it from being
processed. -/
theorem multipart_field_options (curl_formadd : List curl_forms → Nat) (req : json_t)
    (pm : List (String × json_t)) (ps : List json_t)
    (hpd : json_object_get (some req) "postData" = some (json_t.object pm))
    (hps : members_get "params" pm = some (json_t.array ps))
    (h : ∀ param ∈ ps, string_pairs (json_object_get (some param) "headers")) :
    (∀ param ∈ ps, json_is_object (some param) = true →
      ∃ ws, param_option_writes param = some ws
        ∧ ws.map Prod.snd = (field_options param (field_headers param)).map some ++ [none]
        ∧ ws.map Prod.fst = List.range ws.length
        ∧ ws.length ≤ 7
        ∧ (∀ w ∈ ws, w.1 < 8)
        ∧ param_options param = some (field_options param (field_headers param)))
    ∧ har_request_postdata_to_curl_httppost curl_formadd (some req)
      = some (some (if json_is_string (members_get "mimeType" pm) then
            json_object_set_new req "_contentType" (members_get "mimeType" pm) else req),
          ((ps.filter (fun p => json_is_object (some p))).map
            (fun p => field_options p (field_headers p))).filter
              (fun options => decide (curl_formadd options = 0))) := by
  constructor
  · intro param hparam _
    obtain ⟨ws, h1, h2, h3, h4⟩ := param_option_writes_spec param (h param hparam)
    refine ⟨ws, h1, h2, h3, h4, ?_, param_options_field_options param (h param hparam)⟩
    intro w hw
    have hmem : w.1 ∈ ws.map Prod.fst := List.mem_map_of_mem _ hw
    rw [h3, List.mem_range] at hmem
    omega
  · have hreq : json_is_object (some req) = true := by
      cases req <;> simp [json_object_get] at hpd
      rfl
    have hobj : json_is_object (some (json_t.object pm)) = true := rfl
    have h1 : json_object_get (some (json_t.object pm)) "params" = some (json_t.array ps) :=
      hps
    have h2 : json_object_get (some (json_t.object pm)) "mimeType"
        = members_get "mimeType" pm := rfl
    have harr : json_is_array (some (json_t.array ps)) = true := rfl
    have hitems : json_array_items (some (json_t.array ps)) = ps := rfl
    simp only [har_request_postdata_to_curl_httppost, hreq, hpd, hobj, h1, h2, harr, hitems,
      Bool.not_true, Bool.false_eq_true, if_false, httppost_loop_fields curl_formadd ps h,
      List.nil_append]

/-- Witness for C16, amended: the request with a six-member parameter, a number, a
parameter that `curl_formadd` refuses and a parameter with a name and a value.  The first
parameter gives six options and the end marker, written at the indices 0 to 6; the form
holds the fields of the first and of the last parameter. -/
theorem multipart_field_options_witness :
    (∃ ws, param_option_writes full_param = some ws
      ∧ ws.map Prod.snd = (field_options full_param (field_headers full_param)).map some
          ++ [none]
      ∧ ws.map Prod.fst = List.range ws.length
      ∧ ws.length ≤ 7
      ∧ (∀ w ∈ ws, w.1 < 8)
      ∧ param_options full_param = some (field_options full_param (field_headers full_param)))
    ∧ har_request_postdata_to_curl_httppost formadd_complete_fields (some multipart_request)
      = some (some (json_object_set_new multipart_request "_contentType"
            (some (json_t.string "multipart/form-data".toList))),
          [[curl_forms.CURLFORM_COPYNAME "a".toList, curl_forms.CURLFORM_COPYCONTENTS "b".toList,
              curl_forms.CURLFORM_FILE "c".toList, curl_forms.CURLFORM_FILENAME "d".toList,
              curl_forms.CURLFORM_CONTENTTYPE "e".toList,
              curl_forms.CURLFORM_CONTENTHEADER ["X: y".toList]],
            [curl_forms.CURLFORM_COPYNAME "k".toList,
              curl_forms.CURLFORM_COPYCONTENTS "v".toList]]) :=
  ⟨(multipart_field_options formadd_complete_fields multipart_request
      [("mimeType", json_t.string "multipart/form-data".toList),
        ("params", json_t.array multipart_params)] multipart_params rfl rfl
      multipart_params_well_formed).1 full_param (List.mem_cons_self _ _) rfl,
    (multipart_field_options formadd_complete_fields multipart_request
      [("mimeType", json_t.string "multipart/form-data".toList),
        ("params", json_t.array multipart_params)] multipart_params rfl rfl
      multipart_params_well_formed).2.trans (by rfl)⟩

/-! ## C17: the conflict leaves the buffer alone -/

/-- C17: whenever the `postData` object of the request has a `params` member and a `text`
member, whatever their JSON types and contents, `har_request_postdata_to_byte_array`
returns `HAR_ERROR_TEXT_AND_PARAMS` and leaves the buffer as it was; and whenever it
returns 0 while `postData.text` is not a string (absent included), the buffer is as it
was. -/
theorem text_and_params_conflict_keeps_buffer (g_base64_decode : List Char → List Char)
    (req : Option json_t) (bytes : List Char) :
    (∀ (members : List (String × json_t)) (params text : json_t),
        json_object_get req "postData" = some (json_t.object members) →
        members_get "params" members = some params →
        members_get "text" members = some text →
        har_request_postdata_to_byte_array g_base64_decode req bytes
          = (HAR_ERROR_TEXT_AND_PARAMS, bytes))
    ∧ ((har_request_postdata_to_byte_array g_base64_decode req bytes).1 = 0 →
        json_is_string (json_object_get (json_object_get req "postData") "text") = false →
        (har_request_postdata_to_byte_array g_base64_decode req bytes).2 = bytes) := by
  constructor
  · intro members params text hpd hparams htext
    have hreq : json_is_object req = true := by
      cases req with
      | none => simp [json_object_get] at hpd
      | some r => cases r <;> first | rfl | simp [json_object_get] at hpd
    have h1 : json_object_get (some (json_t.object members)) "params" = some params := hparams
    have h2 : json_object_get (some (json_t.object members)) "text" = some text := htext
    have hobj : json_is_object (some (json_t.object members)) = true := rfl
    simp [har_request_postdata_to_byte_array, hreq, hpd, h1, h2, hobj]
  · intro _ hstr
    simp [har_request_postdata_to_byte_array, hstr]
    split_ifs <;> rfl

/-- Witness for C17: an empty `params` array next to a `text` that is a number. -/
theorem text_and_params_conflict_keeps_buffer_witness :
    har_request_postdata_to_byte_array (fun s => s)
        (some (postdata_request [("params", json_t.array []), ("text", json_t.integer 5)]))
        "kept".toList
      = (HAR_ERROR_TEXT_AND_PARAMS, "kept".toList) :=
  (text_and_params_conflict_keeps_buffer (fun s => s)
      (some (postdata_request [("params", json_t.array []), ("text", json_t.integer 5)]))
      "kept".toList).1
    [("params", json_t.array []), ("text", json_t.integer 5)] (json_t.array [])
    (json_t.integer 5) rfl rfl rfl

end Harcurl
